import Mathlib

/-!
The hermes-cli launcher: a verification development.

A shallow embedding of the Go sources of `hermes-cli` (packages `config`,
`engine`, `commands`) and theorems about it.

Conventions of the embedding

* Go `string` is `String`; Go `int` and `time.Duration` are `Int`
  (a duration counts nanoseconds); a Go `error` is `Option String`
  (`none` is `nil`, `some m` is an error whose `Error()` text is `m`).
* Effects are explicit: a function that talks to the outside world takes an
  `Env` (the answers of the outside world) and a `World` (clock, number of
  HTTP requests issued, trace of the effects performed) and returns the new
  `World` with its result.
* Writes to `ctx.Stdout` and to the logger are presentation only and are not
  part of the trace, except that the trace records each phase that `Run` announces
  and its final success report.
* The answer of the host to a command, a PATH lookup or a `stat` may depend on what
  was done before: these oracles of `Env` take the trace so far.
* A command line is modelled after `fs.Parse`, as the record of its flag values.
* A Go pointer that may be nil is an `Option`; a write through nil is a panic, which
  ends the computation (`Ret.panic`, `Outcome.panicked`).
-/

namespace Hermes

/-! ## Definitions -/

/-! ### Standard library functions used by the sources -/

namespace strconv

/-- Go `strconv.Itoa`: the decimal text of a signed integer. -/
def Itoa (i : Int) : String :=
  if i < 0 then "-" ++ Nat.repr i.natAbs else Nat.repr i.toNat

end strconv

namespace unicode

/-- Go `unicode.IsSpace`: the code points with the Unicode White_Space property. -/
def IsSpace (r : Char) : Bool :=
  let n := r.toNat
  (0x09 ≤ n && n ≤ 0x0d) || n == 0x20 || n == 0x85 || n == 0xA0 || n == 0x1680 ||
  (0x2000 ≤ n && n ≤ 0x200a) || n == 0x2028 || n == 0x2029 || n == 0x202f ||
  n == 0x205f || n == 0x3000

end unicode

namespace strings

/-- The scan of Go `strings.FieldsFunc`: `cur` holds the characters of the field
being read, last character first. -/
def fieldsScan (f : Char → Bool) : List Char → List Char → List String
  | [], cur => if cur.isEmpty then [] else [String.mk cur.reverse]
  | c :: cs, cur =>
    if f c then
      if cur.isEmpty then fieldsScan f cs [] else String.mk cur.reverse :: fieldsScan f cs []
    else fieldsScan f cs (c :: cur)

/-- Go `strings.Fields`: the maximal runs of non-space characters, in order. -/
def Fields (s : String) : List String :=
  fieldsScan unicode.IsSpace s.data []

/-- Go `strings.TrimSpace`: the string without its leading and trailing white space. -/
def TrimSpace (s : String) : String :=
  String.mk ((s.data.dropWhile unicode.IsSpace).reverse.dropWhile unicode.IsSpace).reverse

/-- The scan of `Split` for a separator of one character: `cur` holds the characters
of the piece being read, last character first. -/
def splitScan (sep : Char) : List Char → List Char → List String
  | [], cur => [String.mk cur.reverse]
  | c :: cs, cur =>
    if c = sep then String.mk cur.reverse :: splitScan sep cs [] else splitScan sep cs (c :: cur)

/-- Go `strings.Split` for a separator of one character: the pieces between the
separators, in order; a string without separator is its only piece. -/
def Split (s : String) (sep : Char) : List String :=
  splitScan sep s.data []

end strings

/-! ### package config -/

namespace config

/-- Go `type Engine string`. -/
abbrev Engine := String

def EngineSGLang : Engine := "sglang"

def EngineVLLM : Engine := "vllm"

/-- Go `type InstallMode string`. -/
abbrev InstallMode := String

def InstallSGLang : InstallMode := "sglang"

def InstallVLLM : InstallMode := "vllm"

def InstallBoth : InstallMode := "both"

def InstallNone : InstallMode := "none"

structure ServeConfig where
  Engine : Engine
  Model : String
  TP : Int
  Host : String
  Port : Int
  Daemon : Bool
  ExtraArgs : String
  LogFile : String
  deriving DecidableEq, Repr

end config

/-! ### package engine -/

namespace engine

/-- The two implementations of the Go interface `Engine`. -/
inductive Engine where
  | SGLangEngine
  | VLLMEngine
  deriving DecidableEq, Repr

namespace SGLangEngine

def Name : String := "sglang"

def ServeCommand (cfg : config.ServeConfig) : String × List String :=
  let args := [
    "run", "python", "-m", "sglang.launch_server",
    "--model-path", cfg.Model,
    "--trust-remote-code",
    "--tp-size", strconv.Itoa cfg.TP,
    "--host", cfg.Host,
    "--port", strconv.Itoa cfg.Port]
  ("uv", args)

end SGLangEngine

namespace VLLMEngine

def Name : String := "vllm"

def ServeCommand (cfg : config.ServeConfig) : String × List String :=
  let args := [
    "run", "vllm", "serve", cfg.Model,
    "--host", cfg.Host,
    "--port", strconv.Itoa cfg.Port,
    "--tensor-parallel-size", strconv.Itoa cfg.TP,
    "--trust-remote-code"]
  let args := if cfg.ExtraArgs ≠ "" then args ++ strings.Fields cfg.ExtraArgs else args
  ("uv", args)

end VLLMEngine

/-- Method `Name` of the interface, by dynamic dispatch. -/
def Engine.Name : Engine → String
  | .SGLangEngine => SGLangEngine.Name
  | .VLLMEngine => VLLMEngine.Name

/-- Method `ServeCommand` of the interface, by dynamic dispatch. -/
def Engine.ServeCommand : Engine → config.ServeConfig → String × List String
  | .SGLangEngine => SGLangEngine.ServeCommand
  | .VLLMEngine => VLLMEngine.ServeCommand

/-- Go `engine.Get`; `none` is the nil interface value. -/
def Get (name : config.Engine) : Option Engine :=
  if name = config.EngineSGLang then some .SGLangEngine
  else if name = config.EngineVLLM then some .VLLMEngine
  else none

end engine

/-! ### The outside world -/

/-- A Go `error`: `none` is `nil`, `some m` an error with message `m`. -/
abbrev Err := Option String

/-- Go `time.Second`, in nanoseconds. -/
def Second : Int := 1000000000

/-- Go `int64` wrap-around of an exact integer. -/
def wrapInt64 (x : Int) : Int :=
  (x + 9223372036854775808) % 18446744073709551616 - 9223372036854775808

/-- Go `http.StatusOK`. -/
def StatusOK : Int := 200

/-- What `client.Get` or `client.Do` gives back: a transport error (`err != nil`),
or a response with its status code. -/
inductive HTTPResult where
  | transportError (msg : String)
  | response (StatusCode : Int)
  deriving DecidableEq, Repr

/-- One HTTP exchange: how long the call took (nanoseconds) and what it gave back. -/
structure Exchange where
  took : Nat
  result : HTTPResult
  deriving DecidableEq, Repr

/-- Where the output of the child process is copied to: the caller's display
stream (`ctx.Stdout`) or the log file opened by `runServe`. -/
inductive Sink where
  | display
  | logFile (path : String)
  deriving DecidableEq, Repr

/-- The fields of Go `exec.Cmd` that `serve.go` sets. An empty list of sinks is
the nil writer (the output is discarded). -/
structure Cmd where
  Path : String
  Args : List String
  Stdout : List Sink
  Stderr : List Sink
  Setpgid : Bool
  deriving DecidableEq, Repr

/-- The error of Go `cmd.Run()` when it is not nil: an `*exec.ExitError`, with the
value of its `ExitCode()` (the exit status of a child that exited, -1 for a child
ended by a signal), or any other error (the command could not be started). -/
inductive CmdError where
  | exit (ExitCode : Int) (msg : String)
  | other (msg : String)
  deriving DecidableEq, Repr

/-- What running a command to completion gives: the bytes written to the two
buffers and the value of `cmd.Run()`. -/
structure CmdOutcome where
  stdout : String := ""
  stderr : String := ""
  err : Option CmdError := none
  deriving DecidableEq, Repr

/-- What `os.ReadFile` gives on the state file. -/
inductive ReadOutcome where
  /-- An error for which `os.IsNotExist` holds -/
  | notExist
  /-- Any other error, such as permission denied -/
  | failed (msg : String)
  | data (bytes : String)
  deriving DecidableEq, Repr

namespace commands

/-- The persisted installation state; `LastUpdated` is a clock reading. -/
structure InstallState where
  SGLangInstalled : Bool := false
  SGLangVersion : String := ""
  VLLMInstalled : Bool := false
  VLLMVersion : String := ""
  UVInstalled : Bool := false
  VenvPath : String := ""
  LastUpdated : Int := 0
  deriving DecidableEq, Repr

end commands

/-- The phases of the `run` pipeline. -/
inductive Phase where
  | doctor
  | install
  | serve
  | readiness
  | verify
  deriving DecidableEq, Repr

/-- The effects recorded in the trace. -/
inductive Event where
  /-- The pipeline announces a phase and enters it -/
  | phase (p : Phase)
  /-- An external command run to completion by the doctor or install phase -/
  | exec (name : String) (args : List String)
  /-- An HTTP request is issued -/
  | http (method url : String)
  /-- Go `time.Sleep` -/
  | sleep (d : Int)
  /-- Go `os.OpenFile` on the log path -/
  | openLog (path : String)
  /-- The deferred `logFile.Close()` -/
  | closeLog (path : String)
  /-- Go `signal.Notify(sigChan, SIGINT, SIGTERM)` -/
  | notify
  /-- Go `cmd.Start()` is called -/
  | start (cmd : Cmd)
  /-- Go `cmd.Process.Signal(syscall.SIGTERM)` -/
  | sigterm
  /-- The value of `cmd.Wait()` is received from `done`: the child is reaped -/
  | reaped
  /-- Go `os.Setenv` -/
  | setenv (key value : String)
  /-- The state file is written by `saveState` -/
  | writeState (state : commands.InstallState)
  /-- The pipeline reports success for an endpoint ("Hermes is operational: ...") -/
  | report (endpoint : String)
  deriving DecidableEq, Repr

/-- The state threaded through the effectful functions. -/
structure World where
  /-- the reading of the clock, in nanoseconds -/
  now : Int
  /-- how many HTTP requests have been issued so far -/
  requests : Nat
  /-- the effects performed so far, oldest first -/
  trace : List Event
  deriving DecidableEq, Repr

/-- Record one effect. -/
def World.emit (w : World) (e : Event) : World :=
  { w with trace := w.trace ++ [e] }

/-- The answers of the outside world. -/
structure Env where
  /-- The outcome of the `n`-th HTTP request issued (counted from 0), given its
  method and URL -/
  http : Nat → String → String → Exchange :=
    fun _ _ _ => { took := 0, result := .transportError "connection refused" }
  /-- The error of `http.NewRequest` for a method and URL (a malformed URL) -/
  newRequest : String → String → Err := fun _ _ => none
  /-- The error of `os.OpenFile` on a log path -/
  openFile : String → Err := fun _ => none
  /-- The error of `cmd.Start()` -/
  start : String → List String → Err := fun _ _ => none
  /-- In `runForeground`, whether the signal channel fires before `done` -/
  signalFirst : Bool := false
  /-- The value of `cmd.Wait()` -/
  wait : Err := none
  /-- What `exec.LookPath` finds for a program name, after the given history -/
  lookPath : List Event → String → Bool := fun _ _ => true
  /-- What running a command to completion gives, after the given history -/
  cmdRun : List Event → String → List String → CmdOutcome := fun _ _ _ => {}
  /-- What `os.ReadFile` gives on the state file -/
  readState : ReadOutcome := .notExist
  /-- Go `json.Unmarshal` into an `InstallState`: the decoded state, or `none` when the
  bytes do not parse -/
  unmarshalState : String → Option commands.InstallState := fun _ => none
  /-- The error of `os.MkdirAll` on the directory of the state file -/
  mkdirAll : Err := none
  /-- The error of `os.WriteFile` on the state file -/
  writeFile : Err := none
  /-- Whether `os.Stat` succeeds on a path, after the given history -/
  stat : List Event → String → Bool := fun _ _ => true
  /-- Go `filepath.Abs` -/
  abs : String → String := fun p => p
  /-- Go `os.Getenv` -/
  getenv : String → String := fun _ => ""
  /-- The error of writing a JSON document to `ctx.Stdout` -/
  encode : Err := none
  /-- Go `FindStringSubmatch` of the pattern "release (\\d+\\.\\d+)" of `checkCUDA`: empty when
  there is no match, else the match followed by its group -/
  findRelease : String → List String := fun _ => []

/-- Go `client.Get(url)` and `client.Do(req)`: the request is issued, the clock
advances by the time the exchange took. -/
def clientDo (env : Env) (method url : String) (w : World) : HTTPResult × World :=
  let x := env.http w.requests method url
  (x.result,
   { now := w.now + x.took, requests := w.requests + 1,
     trace := w.trace ++ [Event.http method url] })

/-- The test `err == nil && resp.StatusCode == http.StatusOK`. -/
def HTTPResult.isOK : HTTPResult → Bool
  | .transportError _ => false
  | .response code => code == StatusOK

/-! ### package execx -/

namespace execx

structure Result where
  Stdout : String
  Stderr : String
  ExitCode : Int
  Err : Option CmdError
  deriving DecidableEq, Repr

/-- The exit code that `Run` derives from the value of `cmd.Run()`. -/
def exitCodeOf (err : Option CmdError) : Int :=
  match err with
  | some (.exit ExitCode _) => ExitCode
  | some (.other _) => -1
  | none => 0

def Run (env : Env) (name : String) (args : List String) (w : World) : Result × World :=
  let o := env.cmdRun w.trace name args
  let exitCode := exitCodeOf o.err
  ({ Stdout := strings.TrimSpace o.stdout, Stderr := strings.TrimSpace o.stderr,
     ExitCode := exitCode, Err := o.err },
   w.emit (.exec name args))

def CommandExists (env : Env) (name : String) (w : World) : Bool :=
  env.lookPath w.trace name

end execx

/-! ### package engine: the methods that run commands -/

namespace engine

namespace SGLangEngine

def CheckInstalled (env : Env) (w : World) : (Bool × String × Err) × World :=
  let (result, w) :=
    execx.Run env "uv" ["run", "python", "-c", "import sglang; print(sglang.__version__)"] w
  if result.ExitCode = 0 then ((true, result.Stdout, none), w)
  else
    let (result, w) :=
      execx.Run env "python" ["-c", "import sglang; print(sglang.__version__)"] w
    if result.ExitCode = 0 then ((true, result.Stdout, none), w)
    else ((false, "", none), w)

def Install (env : Env) (w : World) : Err × World :=
  let (result, w) := execx.Run env "uv" ["pip", "install", "-U", "sglang>=0.4"] w
  if result.ExitCode ≠ 0 then (some ("failed to install sglang: " ++ result.Stderr), w)
  else (none, w)

end SGLangEngine

namespace VLLMEngine

def CheckInstalled (env : Env) (w : World) : (Bool × String × Err) × World :=
  let (result, w) :=
    execx.Run env "uv" ["run", "python", "-c", "import vllm; print(vllm.__version__)"] w
  if result.ExitCode = 0 then ((true, result.Stdout, none), w)
  else
    let (result, w) :=
      execx.Run env "python" ["-c", "import vllm; print(vllm.__version__)"] w
    if result.ExitCode = 0 then ((true, result.Stdout, none), w)
    else
      let (result, w) := execx.Run env "vllm" ["--version"] w
      if result.ExitCode = 0 then ((true, result.Stdout, none), w)
      else ((false, "", none), w)

def Install (env : Env) (w : World) : Err × World :=
  let (result, w) := execx.Run env "uv" ["pip", "install", "-U", "vllm>=0.6"] w
  if result.ExitCode ≠ 0 then (some ("failed to install vllm: " ++ result.Stderr), w)
  else (none, w)

end VLLMEngine

/-- Method `CheckInstalled` of the interface, by dynamic dispatch. -/
def Engine.CheckInstalled : Engine → Env → World → (Bool × String × Err) × World
  | .SGLangEngine => SGLangEngine.CheckInstalled
  | .VLLMEngine => VLLMEngine.CheckInstalled

/-- Method `Install` of the interface, by dynamic dispatch. -/
def Engine.Install : Engine → Env → World → Err × World
  | .SGLangEngine => SGLangEngine.Install
  | .VLLMEngine => VLLMEngine.Install

end engine

/-! ### package commands: verify.go -/

namespace commands

structure VerifyResult where
  Endpoint : String
  Status : String
  ModelsOK : Bool
  HealthOK : Bool
  ChatOK : Bool
  Message : String
  DurationMs : Int
  deriving DecidableEq, Repr

def checkModels (env : Env) (base : String) (_jsonOut : Bool) (w : World) : Bool × World :=
  let url := base ++ "/v1/models"
  match clientDo env "GET" url w with
  | (.transportError _, w) => (false, w)
  | (.response StatusCode, w) =>
    if StatusCode = StatusOK then (true, w) else (false, w)

def checkHealth (env : Env) (base : String) (_jsonOut : Bool) (w : World) : Bool × World :=
  let url := base ++ "/health"
  match clientDo env "GET" url w with
  | (.transportError _, w) => (false, w)
  | (.response StatusCode, w) =>
    if StatusCode = StatusOK then (true, w) else (false, w)

def checkChatCompletion (env : Env) (base : String) (_jsonOut : Bool) (w : World) :
    Bool × World :=
  let url := base ++ "/v1/chat/completions"
  match env.newRequest "POST" url with
  | some _ => (false, w)
  | none =>
    match clientDo env "POST" url w with
    | (.transportError _, w) => (false, w)
    | (.response StatusCode, w) =>
      if StatusCode = StatusOK then (true, w) else (false, w)

def runVerify (env : Env) (base : String) (_timeout : Int) (testChat jsonOut : Bool)
    (w : World) : VerifyResult × World :=
  let start := w.now
  let result : VerifyResult :=
    { Endpoint := base, Status := "", ModelsOK := false, HealthOK := false,
      ChatOK := false, Message := "", DurationMs := 0 }
  let (modelsOK, w) := checkModels env base jsonOut w
  let result := { result with ModelsOK := modelsOK }
  let (healthOK, w) := checkHealth env base jsonOut w
  let result := { result with HealthOK := healthOK }
  let (result, w) :=
    if testChat then
      let (chatOK, w) := checkChatCompletion env base jsonOut w
      ({ result with ChatOK := chatOK }, w)
    else (result, w)
  let result := { result with DurationMs := (w.now - start).tdiv 1000000 }
  if result.ModelsOK || result.HealthOK then
    ({ result with Status := "ok", Message := "Server is operational" }, w)
  else
    ({ result with Status := "fail", Message := "Server not responding" }, w)

/-- The flags of `hermes verify` after `fs.Parse`, with their defaults. -/
structure VerifyFlags where
  host : String := "127.0.0.1"
  port : Int := 30000
  timeout : Int := 60
  noVerify : Bool := false
  jsonOutput : Bool := false
  chat : Bool := false
  deriving DecidableEq, Repr

/-- In JSON mode the value returned is the error of `enc.Encode(result)`, which is the
error of writing the document to `ctx.Stdout`. -/
def Verify (env : Env) (f : VerifyFlags) (w : World) : Err × World :=
  if f.noVerify then (none, w)
  else
    let base := "http://" ++ f.host ++ ":" ++ strconv.Itoa f.port
    let (result, w) := runVerify env base (wrapInt64 (f.timeout * Second)) f.chat f.jsonOutput w
    if f.jsonOutput then (env.encode, w)
    else if result.Status = "ok" then (none, w)
    else (some ("verification failed: " ++ result.Message), w)

end commands

/-! ### package main -/

namespace main

/-- The exit status that `main` gives for the value that `dispatch` returned:
`os.Exit(1)` on an error, a normal return (status 0) otherwise. -/
def exitStatus (err : Err) : Int :=
  if err ≠ none then 1 else 0

end main

namespace app

structure GlobalFlags where
  LogFile : String := ""
  Debug : Bool := false
  NoColor : Bool := false
  ForceColor : Bool := false
  deriving DecidableEq, Repr

end app

namespace main

/-- The loop of `parseGlobalFlags` over the arguments from index `i` on. -/
def parseLoop : List String → app.GlobalFlags → app.GlobalFlags
  | [], flags => flags
  | arg :: rest, flags =>
    if arg = "--log-file" then
      match rest with
      | value :: rest => parseLoop rest { flags with LogFile := value }
      | [] => flags
    else if arg = "--debug" then parseLoop rest { flags with Debug := true }
    else if arg = "--no-color" then parseLoop rest { flags with NoColor := true }
    else if arg = "--force-color" then parseLoop rest { flags with ForceColor := true }
    else parseLoop rest flags

/-- The argument is `os.Args`; the loop starts at index 1. -/
def parseGlobalFlags (osArgs : List String) : app.GlobalFlags :=
  let flags := parseLoop (osArgs.drop 1) {}
  if flags.LogFile = "" then { flags with LogFile := "./hermes.log" } else flags

/-- The loop of `filterGlobalFlags`: `prev` is `args[i-1]` (`none` when `i` is 0) and
`skip` the local flag of the same name. -/
def filterLoop : Option String → Bool → List String → List String
  | _, _, [] => []
  | prev, skip, arg :: rest =>
    if skip then filterLoop (some arg) false rest
    else if arg = "--log-file" then filterLoop (some arg) true rest
    else if arg = "--debug" ∨ arg = "--no-color" ∨ arg = "--force-color" then
      filterLoop (some arg) false rest
    else if prev = some "--log-file" then filterLoop (some arg) false rest
    else arg :: filterLoop (some arg) false rest

def filterGlobalFlags (args : List String) : List String :=
  filterLoop none false args

end main

/-! ### package commands: serve.go -/

namespace exec

/-- Go `exec.CommandContext`: a command that is not started yet, with no output
writers set. -/
def CommandContext (name : String) (args : List String) : Cmd :=
  { Path := name, Args := args, Stdout := [], Stderr := [], Setpgid := false }

end exec

namespace commands

/-- The application context of package `app`; only `LogFile` is read here. -/
structure AppContext where
  LogFile : String
  deriving DecidableEq, Repr

/-- In Go `logFile` is a `*os.File`; here `none` is the nil pointer and `some p`
the file opened at path `p`. -/
def runDaemon (env : Env) (cmd : Cmd) (logFile : Option String)
    (_cfg : config.ServeConfig) (w : World) : Err × World :=
  let cmd :=
    match logFile with
    | some p => { cmd with Stdout := [Sink.logFile p], Stderr := [Sink.logFile p] }
    | none => cmd
  let cmd := { cmd with Setpgid := true }
  match env.start cmd.Path cmd.Args with
  | some err => (some ("failed to start daemon: " ++ err), w.emit (.start cmd))
  | none => (none, w.emit (.start cmd))

def runForeground (env : Env) (cmd : Cmd) (logFile : Option String)
    (_cfg : config.ServeConfig) (w : World) : Err × World :=
  let writers := [Sink.display]
  let writers :=
    match logFile with
    | some p => writers ++ [Sink.logFile p]
    | none => writers
  let cmd := { cmd with Stdout := writers, Stderr := writers }
  let w := w.emit .notify
  match env.start cmd.Path cmd.Args with
  | some err => (some ("failed to start server: " ++ err), w.emit (.start cmd))
  | none =>
    let w := w.emit (.start cmd)
    if env.signalFirst then
      let w := w.emit .sigterm
      let w := w.emit .reaped
      (none, w)
    else
      let w := w.emit .reaped
      match env.wait with
      | some err => (some ("server exited with error: " ++ err), w)
      | none => (none, w)

def runServe (env : Env) (cfg : config.ServeConfig) (w : World) : Err × World :=
  match engine.Get cfg.Engine with
  | none => (some ("unknown engine: " ++ cfg.Engine), w)
  | some eng =>
    let (cmdName, cmdArgs) := eng.ServeCommand cfg
    let cmd := exec.CommandContext cmdName cmdArgs
    if cfg.LogFile ≠ "" then
      match env.openFile cfg.LogFile with
      | some err => (some ("failed to open log file: " ++ err), w.emit (.openLog cfg.LogFile))
      | none =>
        let w := w.emit (.openLog cfg.LogFile)
        let (err, w) :=
          if cfg.Daemon then runDaemon env cmd (some cfg.LogFile) cfg w
          else runForeground env cmd (some cfg.LogFile) cfg w
        (err, w.emit (.closeLog cfg.LogFile))
    else
      if cfg.Daemon then runDaemon env cmd none cfg w
      else runForeground env cmd none cfg w

/-- The flags of `hermes serve` after `fs.Parse`, with their defaults. -/
structure ServeFlags where
  engineName : String := "sglang"
  model : String := ""
  tp : Int := 4
  host : String := "0.0.0.0"
  port : Int := 30000
  daemon : Bool := false
  extraArgs : String := ""
  deriving DecidableEq, Repr

def Serve (env : Env) (ctx : AppContext) (f : ServeFlags) (w : World) : Err × World :=
  if f.model = "" then (some "--model is required", w)
  else
    let eng? : Option config.Engine :=
      if f.engineName = "sglang" then some config.EngineSGLang
      else if f.engineName = "vllm" then some config.EngineVLLM
      else none
    match eng? with
    | none => (some ("invalid engine: " ++ f.engineName ++ " (use sglang or vllm)"), w)
    | some eng =>
      let cfg : config.ServeConfig :=
        { Engine := eng, Model := f.model, TP := f.tp, Host := f.host, Port := f.port,
          Daemon := f.daemon, ExtraArgs := f.extraArgs, LogFile := ctx.LogFile }
      runServe env cfg w

/-! ### package commands: doctor.go -/

/-- Go `type CheckStatus string`. -/
abbrev CheckStatus := String

def StatusOK : CheckStatus := "ok"

def StatusWarning : CheckStatus := "warning"

def StatusFail : CheckStatus := "fail"

def StatusSkipped : CheckStatus := "skipped"

structure CheckResult where
  Name : String
  Status : CheckStatus := ""
  Message : String := ""
  Details : String := ""
  deriving DecidableEq, Repr

def checkNvidiaSMI (env : Env) (_jsonOut : Bool) (w : World) : CheckResult × World :=
  let check : CheckResult := { Name := "nvidia-smi" }
  if !execx.CommandExists env "nvidia-smi" w then
    ({ check with Status := StatusFail, Message := "nvidia-smi not found" }, w)
  else
    let (result, w) := execx.Run env "nvidia-smi"
      ["--query-gpu=name,memory.total,driver_version", "--format=csv,noheader"] w
    if result.ExitCode ≠ 0 then
      ({ check with Status := StatusFail, Message := "nvidia-smi failed",
                    Details := result.Stderr }, w)
    else
      ({ check with Status := StatusOK, Message := "GPU detected", Details := result.Stdout }, w)

def checkUV (env : Env) (_jsonOut : Bool) (w : World) : CheckResult × World :=
  let check : CheckResult := { Name := "uv" }
  if !execx.CommandExists env "uv" w then
    ({ check with Status := StatusWarning,
                  Message := "uv not found (will install during hermes install)" }, w)
  else
    let (result, w) := execx.Run env "uv" ["--version"] w
    let version := strings.TrimSpace result.Stdout
    ({ check with Status := StatusOK, Message := version }, w)

def checkPython (env : Env) (_jsonOut : Bool) (w : World) : CheckResult × World :=
  let check : CheckResult := { Name := "python" }
  let pythonCmd? : Option String :=
    if !execx.CommandExists env "python3" w then
      if !execx.CommandExists env "python" w then none else some "python"
    else some "python3"
  match pythonCmd? with
  | none => ({ check with Status := StatusWarning, Message := "python not found" }, w)
  | some pythonCmd =>
    let (result, w) := execx.Run env pythonCmd ["--version"] w
    let version := strings.TrimSpace result.Stdout
    ({ check with Status := StatusOK, Message := version }, w)

def checkCUDA (env : Env) (_jsonOut : Bool) (w : World) : CheckResult × World :=
  let check : CheckResult := { Name := "cuda" }
  if !execx.CommandExists env "nvcc" w then
    ({ check with Status := StatusWarning,
                  Message := "nvcc not found (runtime-only image is fine)" }, w)
  else
    let (result, w) := execx.Run env "nvcc" ["--version"] w
    if result.ExitCode ≠ 0 then
      ({ check with Status := StatusWarning, Message := "nvcc failed",
                    Details := result.Stderr }, w)
    else
      let submatches := env.findRelease result.Stdout
      let version := if submatches.length > 1 then submatches.getD 1 "" else "unknown"
      ({ check with Status := StatusOK, Message := "CUDA " ++ version,
                    Details := result.Stdout }, w)

def checkGPUs (env : Env) (_jsonOut : Bool) (w : World) : CheckResult × World :=
  let check : CheckResult := { Name := "gpu_count" }
  let (result, w) := execx.Run env "nvidia-smi" ["--query-gpu=count", "--format=csv,noheader"] w
  if result.ExitCode ≠ 0 then
    ({ check with Status := StatusSkipped, Message := "Could not query GPU count" }, w)
  else
    let lines := strings.Split (strings.TrimSpace result.Stdout) '\n'
    let count := lines.length
    if count > 0 ∧ lines.head? ≠ some "" then
      ({ check with Status := StatusOK,
                    Message := strconv.Itoa count ++ " GPU(s) available" }, w)
    else
      ({ check with Status := StatusFail, Message := "No GPUs detected" }, w)

structure DoctorReport where
  Checks : List CheckResult := []
  Summary : String := ""
  ExitCode : Int := 0
  deriving DecidableEq, Repr

/-- The flags of `hermes doctor` after `fs.Parse`, with their defaults. -/
structure DoctorFlags where
  jsonOutput : Bool := false
  strict : Bool := false
  deriving DecidableEq, Repr

/-- How a command ends: it returns an error value to `main`, or it leaves the process
with `os.Exit`. -/
inductive Termination where
  | returned (err : Err)
  | exited (code : Int)
  deriving DecidableEq, Repr

/-- The report is returned with the way the command ends. -/
def Doctor (env : Env) (f : DoctorFlags) (w : World) : (DoctorReport × Termination) × World :=
  let report : DoctorReport := {}
  let (check, w) := checkNvidiaSMI env f.jsonOutput w
  let report := { report with Checks := report.Checks ++ [check] }
  let (check, w) := checkCUDA env f.jsonOutput w
  let report := { report with Checks := report.Checks ++ [check] }
  let (check, w) := checkGPUs env f.jsonOutput w
  let report := { report with Checks := report.Checks ++ [check] }
  let (check, w) := checkUV env f.jsonOutput w
  let report := { report with Checks := report.Checks ++ [check] }
  let (check, w) := checkPython env f.jsonOutput w
  let report := { report with Checks := report.Checks ++ [check] }
  let (hasOK, hasWarn, hasFail) :=
    report.Checks.foldl (fun (acc : Bool × Bool × Bool) c =>
      if c.Status = StatusOK then (true, acc.2.1, acc.2.2)
      else if c.Status = StatusWarning then (acc.1, true, acc.2.2)
      else if c.Status = StatusFail then (acc.1, acc.2.1, true)
      else acc) (false, false, false)
  let report :=
    if hasFail then { report with ExitCode := 3, Summary := "Some checks failed" }
    else if hasWarn then
      if f.strict then
        { report with ExitCode := 2, Summary := "Some checks have warnings (strict mode)" }
      else
        { report with ExitCode := 0, Summary := "All required checks passed (with warnings)" }
    else if hasOK then { report with ExitCode := 0, Summary := "All checks passed" }
    else { report with ExitCode := 3, Summary := "No checks ran" }
  if f.jsonOutput then ((report, .returned env.encode), w)
  else ((report, .exited report.ExitCode), w)

/-! ### package commands: install.go -/

/-- A value, or the panic that ended the computation. -/
inductive Ret (α : Type) where
  | ok (val : α)
  | panic (msg : String)
  deriving DecidableEq, Repr

/-- The message of the Go runtime for a write through a nil pointer. -/
def nilDereference : String :=
  "runtime error: invalid memory address or nil pointer dereference"

/-- The pointer result is `none` for nil. -/
def loadState (env : Env) : Option InstallState × Err :=
  match env.readState with
  | .notExist => (some {}, none)
  | .failed msg => (none, some msg)
  | .data bytes =>
    match env.unmarshalState bytes with
    | none => (some {}, none)
    | some state => (some state, none)

def saveState (env : Env) (state : InstallState) (w : World) : Err × World :=
  match env.mkdirAll with
  | some err => (some err, w)
  | none =>
    let state := { state with LastUpdated := w.now }
    (env.writeFile, w.emit (.writeState state))

/-- The flags of `hermes install` after `fs.Parse`, with their defaults. -/
structure InstallFlags where
  installMode : String := "both"
  check : Bool := false
  venvDir : String := ".venv"
  deriving DecidableEq, Repr

/-- The state pointer is `none` for nil; a write through nil panics. The pointer is
returned with the fields that were written. -/
def ensureUV (env : Env) (state : Option InstallState) (w : World) :
    Ret (Err × Option InstallState) × World :=
  if execx.CommandExists env "uv" w then
    match state with
    | none => (.panic nilDereference, w)
    | some st => (.ok (none, some { st with UVInstalled := true }), w)
  else
    let (result, w) :=
      execx.Run env "sh" ["-c", "curl -LsSf https://astral.sh/uv/install.sh | sh"] w
    if result.ExitCode ≠ 0 then
      (.ok (some ("failed to install uv: " ++ result.Stderr), state), w)
    else
      let w := w.emit (.setenv "PATH" (env.getenv "HOME" ++ "/.local/bin:" ++ env.getenv "PATH"))
      if execx.CommandExists env "uv" w then
        match state with
        | none => (.panic nilDereference, w)
        | some st => (.ok (none, some { st with UVInstalled := true }), w)
      else
        (.ok (some "uv installation failed - command not found after install", state), w)

def setupVenv (env : Env) (venvDir : String) (state : Option InstallState) (w : World) :
    Ret (Err × Option InstallState) × World :=
  let absPath := env.abs venvDir
  if env.stat w.trace venvDir then
    match state with
    | none => (.panic nilDereference, w)
    | some st => (.ok (none, some { st with VenvPath := absPath }), w)
  else
    let (result, w) := execx.Run env "uv" ["venv", venvDir] w
    if result.ExitCode ≠ 0 then
      (.ok (some ("failed to create venv: " ++ result.Stderr), state), w)
    else
      match state with
      | none => (.panic nilDereference, w)
      | some st => (.ok (none, some { st with VenvPath := absPath }), w)

/-- The block of `Install` that installs one engine when it is selected and not yet
installed, and checks it again. -/
def installEngine (env : Env) (eng : engine.Engine) (selected installed : Bool)
    (w : World) : Err × Option (Bool × String) × World :=
  if selected then
    if !installed then
      match eng.Install env w with
      | (some err, w) => (some err, none, w)
      | (none, w) =>
        let ((installed, version, _), w) := eng.CheckInstalled env w
        (none, some (installed, version), w)
    else (none, none, w)
  else (none, none, w)

def Install (env : Env) (f : InstallFlags) (w : World) : Ret Err × World :=
  let mode : config.InstallMode := f.installMode
  if mode ≠ config.InstallSGLang ∧ mode ≠ config.InstallVLLM ∧
      mode ≠ config.InstallBoth ∧ mode ≠ config.InstallNone then
    (.ok (some ("invalid install mode: " ++ f.installMode)), w)
  else
    let (state, _) := loadState env
    match ensureUV env state w with
    | (.panic msg, w) => (.panic msg, w)
    | (.ok (some err, _), w) => (.ok (some err), w)
    | (.ok (none, state), w) =>
      match (if !f.check ∧ mode ≠ config.InstallNone then setupVenv env f.venvDir state w
             else (.ok (none, state), w)) with
      | (.panic msg, w) => (.panic msg, w)
      | (.ok (some err, _), w) => (.ok (some err), w)
      | (.ok (none, state), w) =>
        match engine.Get config.EngineSGLang, engine.Get config.EngineVLLM with
        | some sglangEngine, some vllmEngine =>
          let ((installed, version, _), w) := sglangEngine.CheckInstalled env w
          match state with
          | none => (.panic nilDereference, w)
          | some st =>
            let st := { st with SGLangInstalled := installed, SGLangVersion := version }
            let ((installed, version, _), w) := vllmEngine.CheckInstalled env w
            let st := { st with VLLMInstalled := installed, VLLMVersion := version }
            if f.check then (.ok none, w)
            else if mode = config.InstallNone then (.ok none, w)
            else
              match installEngine env sglangEngine
                  (mode = config.InstallSGLang ∨ mode = config.InstallBoth)
                  st.SGLangInstalled w with
              | (some err, _, w) => (.ok (some err), w)
              | (none, upd, w) =>
                let st :=
                  match upd with
                  | some (installed, version) =>
                    { st with SGLangInstalled := installed, SGLangVersion := version }
                  | none => st
                match installEngine env vllmEngine
                    (mode = config.InstallVLLM ∨ mode = config.InstallBoth)
                    st.VLLMInstalled w with
                | (some err, _, w) => (.ok (some err), w)
                | (none, upd, w) =>
                  let st :=
                    match upd with
                    | some (installed, version) =>
                      { st with VLLMInstalled := installed, VLLMVersion := version }
                    | none => st
                  let (_, w) := saveState env st w
                  (.ok none, w)
        | _, _ => (.panic nilDereference, w)

/-! ### package commands: run.go -/

/-- The per-request timeout of the readiness client. -/
def readinessClientTimeout : Int := 5 * Second

/-- The local `checkInterval` of `waitForReadiness`. -/
def checkInterval : Int := 2 * Second

/-- The local `endpoints` of `waitForReadiness`. -/
def endpoints : List String := ["/v1/models", "/health"]

/-- The inner loop of `waitForReadiness`, `for _, endpoint := range endpoints`:
`true` when an endpoint answered 200 (the function then returns nil). -/
def probeEndpoints (env : Env) (base : String) : List String → World → Bool × World
  | [], w => (false, w)
  | endpoint :: rest, w =>
    match clientDo env "GET" (base ++ endpoint) w with
    | (r, w) => if r.isOK then (true, w) else probeEndpoints env base rest w

/-- Go `time.Sleep(d)`: the clock advances by `d`. -/
def sleep (d : Int) (w : World) : World :=
  { w with now := w.now + d, trace := w.trace ++ [Event.sleep d] }

/-- The outer loop of `waitForReadiness`, `for time.Now().Before(deadline)`, run for
at most `fuel` iterations; `none` when the iterations are used up. -/
def waitLoop (env : Env) (base : String) (deadline : Int) : Nat → World → Option (Err × World)
  | 0, _ => none
  | fuel + 1, w =>
    if w.now < deadline then
      match probeEndpoints env base endpoints w with
      | (true, w) => some (none, w)
      | (false, w) => waitLoop env base deadline fuel (sleep checkInterval w)
    else some (some "timeout waiting for server readiness", w)

/-- A number of iterations that the loop of `waitForReadiness` never exceeds: every
iteration that does not return sleeps `checkInterval`. -/
def waitFuel (timeout : Int) : Nat :=
  (timeout / checkInterval).toNat + 2

def waitForReadiness (env : Env) (base : String) (timeout : Int) (w : World) : Err × World :=
  let deadline := w.now + timeout
  match waitLoop env base deadline (waitFuel timeout) w with
  | some r => r
  | none => (some "timeout waiting for server readiness", w)

def runDoctorPhase (env : Env) (w : World) : Err × World :=
  let checks : List (String × (World → (Bool × String) × World)) := [
    ("nvidia-smi", fun w =>
      let (result, w) := checkNvidiaSMI env true w
      ((result.Status == StatusOK, result.Message), w)),
    ("uv", fun w =>
      let (result, w) := checkUV env true w
      ((result.Status == StatusOK || result.Status == StatusWarning, result.Message), w)),
    ("python", fun w =>
      let (result, w) := checkPython env true w
      ((result.Status == StatusOK, result.Message), w))]
  let (allPassed, w) := checks.foldl (fun (acc : Bool × World) c =>
      let ((ok, _msg), w) := c.2 acc.2
      if ok then (acc.1, w)
      else if c.1 = "nvidia-smi" then (false, w) else (acc.1, w)) (true, w)
  if !allPassed then (some "critical doctor checks failed", w) else (none, w)

/-- The call `Install(ctx, []string{"--install", string(mode)})`: the flag set of
`Install` reads the mode as the value of `--install`, whatever its text, and leaves
the other flags at their defaults. -/
def runInstallPhase (env : Env) (mode : config.InstallMode) (w : World) : Ret Err × World :=
  if mode = config.InstallNone then (.ok none, w)
  else Install env { installMode := mode } w

def runServePhase (env : Env) (cfg : config.ServeConfig) (w : World) : Err × World :=
  let cfg := { cfg with Daemon := true }
  runServe env cfg w

/-- The flags of `hermes run` after `fs.Parse`, with their defaults. -/
structure RunFlags where
  engineName : String := ""
  model : String := ""
  tp : Int := 4
  host : String := "0.0.0.0"
  port : Int := 30000
  daemon : Bool := false
  installMode : String := "both"
  noVerify : Bool := false
  extraArgs : String := ""
  readinessTimeout : Int := 300
  deriving DecidableEq, Repr

/-- How a call of `Run` ends: it returns an error value, it blocks for ever in
`select {}`, or it panics. -/
inductive Outcome where
  | returned (err : Err)
  | blocked
  | panicked (msg : String)
  deriving DecidableEq, Repr

def Run (env : Env) (ctx : AppContext) (f : RunFlags) (w : World) : Outcome × World :=
  if f.engineName = "" ∨ f.model = "" then
    (.returned (some "--engine and --model are required"), w)
  else
    let eng? : Option config.Engine :=
      if f.engineName = "sglang" then some config.EngineSGLang
      else if f.engineName = "vllm" then some config.EngineVLLM
      else none
    match eng? with
    | none => (.returned (some ("invalid engine: " ++ f.engineName ++ " (use sglang or vllm)")), w)
    | some eng =>
      let w := w.emit (.phase .doctor)
      match runDoctorPhase env w with
      | (some err, w) => (.returned (some err), w)
      | (none, w) =>
        let w := w.emit (.phase .install)
        match runInstallPhase env f.installMode w with
        | (.panic msg, w) => (.panicked msg, w)
        | (.ok (some err), w) => (.returned (some err), w)
        | (.ok none, w) =>
          let w := w.emit (.phase .serve)
          let serveCfg : config.ServeConfig :=
            { Engine := eng, Model := f.model, TP := f.tp, Host := f.host, Port := f.port,
              Daemon := f.daemon, ExtraArgs := f.extraArgs, LogFile := ctx.LogFile }
          match runServePhase env serveCfg w with
          | (some err, w) => (.returned (some err), w)
          | (none, w) =>
            let base := "http://127.0.0.1:" ++ strconv.Itoa f.port
            let w := w.emit (.phase .readiness)
            match waitForReadiness env base (wrapInt64 (f.readinessTimeout * Second)) w with
            | (some err, w) => (.returned (some err), w)
            | (none, w) =>
              let verified : Err × World :=
                if !f.noVerify then
                  let w := w.emit (.phase .verify)
                  let (result, w) := runVerify env base (60 * Second) true false w
                  if result.Status ≠ "ok" then
                    (some ("verification failed: " ++ result.Message), w)
                  else (none, w)
                else (none, w)
              match verified with
              | (some err, w) => (.returned (some err), w)
              | (none, w) =>
                let w := w.emit (.report base)
                if !f.daemon then (.blocked, w) else (.returned none, w)

end commands

/-! ### The poll cycles of the readiness wait, as the specification counts them -/

/-- The time that the two requests of poll cycle `k` take together, when the
requests of the call are numbered from `n0` and no earlier request answered 200. -/
def cycleTook (env : Env) (base : String) (n0 k : Nat) : Nat :=
  (env.http (n0 + 2 * k) "GET" (base ++ "/v1/models")).took +
  (env.http (n0 + 2 * k + 1) "GET" (base ++ "/health")).took

/-- The clock reading at which poll cycle `k` starts, for a wait started at `now`:
every earlier cycle issued its two requests and then slept for the interval. -/
def cycleStart (env : Env) (base : String) (now : Int) (n0 : Nat) : Nat → Int
  | 0 => now
  | k + 1 => cycleStart env base now n0 k + cycleTook env base n0 k + commands.checkInterval

/-- Whether one of the two probes of poll cycle `k` answers 200. -/
def cycleReady (env : Env) (base : String) (n0 k : Nat) : Bool :=
  (env.http (n0 + 2 * k) "GET" (base ++ "/v1/models")).result.isOK ||
  (env.http (n0 + 2 * k + 1) "GET" (base ++ "/health")).result.isOK

/-- The error that `waitForReadiness` returns at the deadline. -/
def timeoutError : Err := some "timeout waiting for server readiness"

/-! ### The pipeline, phase by phase, as the specification describes it -/

/-- An event of the doctor and install phases: a command run to completion, a change
of the environment, a write of the state file. -/
def Event.onHost : Event → Bool
  | .exec _ _ => true
  | .setenv _ _ => true
  | .writeState _ => true
  | _ => false

/-- An event that is neither a phase announcement nor a termination signal. -/
def Event.quiet : Event → Bool
  | .phase _ => false
  | .sigterm => false
  | _ => true

/-- An event that only the foreground path of the supervisor performs: watching the
signals, signalling or reaping the child, or starting it in the caller's process group. -/
def Event.foreground : Event → Bool
  | .notify => true
  | .sigterm => true
  | .reaped => true
  | .start cmd => !cmd.Setpgid
  | _ => false

/-- The phases announced in a trace, in order. -/
def phasesOf (trace : List Event) : List Phase :=
  trace.filterMap (fun e => match e with
    | .phase p => some p
    | _ => none)

/-- The world `w2` is the world `w1` after some more events, all of which satisfy `P`. -/
def Appends (P : Event → Bool) (w1 w2 : World) : Prop :=
  ∃ evs, w2.trace = w1.trace ++ evs ∧ ∀ e ∈ evs, P e = true

/-- The configuration that `Run` builds from valid flags. -/
def serveConfig (ctx : commands.AppContext) (f : commands.RunFlags) : config.ServeConfig :=
  { Engine := f.engineName, Model := f.model, TP := f.tp, Host := f.host, Port := f.port,
    Daemon := f.daemon, ExtraArgs := f.extraArgs, LogFile := ctx.LogFile }

/-- The base URL that `Run` polls, verifies and reports. -/
def baseURL (f : commands.RunFlags) : String :=
  "http://127.0.0.1:" ++ strconv.Itoa f.port

/-- Phase 1 run from `w`: the result of the doctor phase and the world after it. -/
def doctorDone (env : Env) (w : World) : Err × World :=
  commands.runDoctorPhase env (w.emit (.phase .doctor))

/-- Phase 2 run after phase 1. -/
def installDone (env : Env) (f : commands.RunFlags) (w : World) : commands.Ret Err × World :=
  commands.runInstallPhase env f.installMode ((doctorDone env w).2.emit (.phase .install))

/-- Phase 3 run after phase 2. -/
def serveDone (env : Env) (ctx : commands.AppContext) (f : commands.RunFlags) (w : World) :
    Err × World :=
  commands.runServePhase env (serveConfig ctx f) ((installDone env f w).2.emit (.phase .serve))

/-- Phase 4 run after phase 3. -/
def readinessDone (env : Env) (ctx : commands.AppContext) (f : commands.RunFlags) (w : World) :
    Err × World :=
  commands.waitForReadiness env (baseURL f) (wrapInt64 (f.readinessTimeout * Second))
    ((serveDone env ctx f w).2.emit (.phase .readiness))

/-- Phase 5 run after phase 4. -/
def verifyDone (env : Env) (ctx : commands.AppContext) (f : commands.RunFlags) (w : World) :
    commands.VerifyResult × World :=
  commands.runVerify env (baseURL f) (60 * Second) true false
    ((readinessDone env ctx f w).2.emit (.phase .verify))

/-- How a pipeline whose phases all passed ends: it returns nil in daemon mode and
blocks otherwise. -/
def pipelineEnd (f : commands.RunFlags) : commands.Outcome :=
  if f.daemon then .returned none else .blocked

/-- An event that the daemon path of `runServe` performs: the log file is opened or
closed, or a command is started in its own process group. -/
def Event.onDaemon : Event → Bool
  | .openLog _ => true
  | .closeLog _ => true
  | .start cmd => cmd.Setpgid
  | _ => false

/-- An event that is consistent with `base` being the only endpoint addressed: an HTTP
request goes to one of the three probe paths under `base`, a success report names
`base`; every other event is consistent. -/
def Event.targets (base : String) : Event → Bool
  | .http method url =>
    decide ((method = "GET" ∧ (url = base ++ "/v1/models" ∨ url = base ++ "/health")) ∨
      (method = "POST" ∧ url = base ++ "/v1/chat/completions"))
  | .report endpoint => decide (endpoint = base)
  | _ => true

/-- The commands started in a trace, in order. -/
def startedOf (trace : List Event) : List Cmd :=
  trace.filterMap (fun e => match e with
    | .start cmd => some cmd
    | _ => none)

/-- The sleeps in a trace. -/
def sleepsOf (trace : List Event) : List Int :=
  trace.filterMap (fun e => match e with
    | .sleep d => some d
    | _ => none)

/-- The sinks that `runForeground` merges for the child, given the log file. -/
def foregroundSinks (logFile : Option String) : List Sink :=
  match logFile with
  | some p => [Sink.display, Sink.logFile p]
  | none => [Sink.display]

/-- The sinks that the child of `runServe` writes to: the display in foreground mode
only, and the log file when one is configured. -/
def childSinks (cfg : config.ServeConfig) : List Sink :=
  (if cfg.Daemon then [] else [Sink.display]) ++
  (if cfg.LogFile ≠ "" then [Sink.logFile cfg.LogFile] else [])

/-- The configuration that `Serve` builds from valid flags. -/
def serveConfigOf (ctx : commands.AppContext) (f : commands.ServeFlags) : config.ServeConfig :=
  { Engine := f.engineName, Model := f.model, TP := f.tp, Host := f.host, Port := f.port,
    Daemon := f.daemon, ExtraArgs := f.extraArgs, LogFile := ctx.LogFile }

/-- The arguments that the loop of `parseGlobalFlags` passes over without consuming
them: those that are neither one of the four global flags nor the value taken by a
`--log-file`. -/
def keptByParse : List String → List String
  | [] => []
  | arg :: rest =>
    if arg = "--log-file" then
      match rest with
      | _ :: rest => keptByParse rest
      | [] => []
    else if arg = "--debug" ∨ arg = "--no-color" ∨ arg = "--force-color" then keptByParse rest
    else arg :: keptByParse rest

/-- Whether somewhere in the arguments a `--log-file` directly follows a `--log-file`. -/
def logFileTwice : List String → Bool
  | a :: b :: rest => (a == "--log-file" && b == "--log-file") || logFileTwice (b :: rest)
  | _ => false

/-- The five checks of `Doctor`, in the order of the report, each run in the world that
the one before left. -/
def doctorChecks (env : Env) (jsonOut : Bool) (w : World) : List commands.CheckResult :=
  let r1 := commands.checkNvidiaSMI env jsonOut w
  let r2 := commands.checkCUDA env jsonOut r1.2
  let r3 := commands.checkGPUs env jsonOut r2.2
  let r4 := commands.checkUV env jsonOut r3.2
  let r5 := commands.checkPython env jsonOut r4.2
  [r1.1, r2.1, r3.1, r4.1, r5.1]

/-- The exit code of the doctor report as the specification states it. -/
def doctorExitCode (checks : List commands.CheckResult) (strict : Bool) : Int :=
  if checks.any (fun c => c.Status == commands.StatusFail) then 3
  else if checks.any (fun c => c.Status == commands.StatusWarning) && strict then 2
  else 0

/-- An event that stops a started server. -/
def Event.stops : Event → Bool
  | .sigterm => true
  | _ => false

/-- The configuration `cfg` with the daemon flag set and every other field as it is. -/
def withDaemon (cfg : config.ServeConfig) : config.ServeConfig :=
  { Engine := cfg.Engine, Model := cfg.Model, TP := cfg.TP, Host := cfg.Host, Port := cfg.Port,
    Daemon := true, ExtraArgs := cfg.ExtraArgs, LogFile := cfg.LogFile }

/-! ### Concrete inputs used by the closed theorems -/

/-- A server that answers 200 on `/v1/models` and 503 on `/health` (each after 1 ms)
and refuses every other request. -/
def stubC : Env where
  http := fun _ _ url =>
    if url = "http://127.0.0.1:30000/v1/models" then { took := 1000000, result := .response 200 }
    else if url = "http://127.0.0.1:30000/health" then { took := 1000000, result := .response 503 }
    else { took := 0, result := .transportError "connection refused" }

/-- The server of `stubC`, which also answers 200 to the chat completion. -/
def stubChat : Env where
  http := fun _ method url =>
    if method = "POST" then { took := 1000000, result := .response 200 }
    else stubC.http 0 method url

/-- The world at the start: clock at 0, nothing done yet. -/
def world0 : World := { now := 0, requests := 0, trace := [] }

/-- A serve configuration with free-form extra arguments. -/
def cfgExtra : config.ServeConfig :=
  { Engine := "sglang", Model := "demo", TP := 4, Host := "0.0.0.0", Port := 30000,
    Daemon := false, ExtraArgs := "--mem-fraction-static 0.8", LogFile := "" }

/-- The configuration `cfgExtra` with another engine, daemon flag and log file. -/
def cfgExtraOther : config.ServeConfig :=
  { cfgExtra with Engine := "vllm", Daemon := true, LogFile := "./hermes.log" }

/-- A serve configuration whose engine identifier is not a known one. -/
def cfgUnknown : config.ServeConfig :=
  { cfgExtra with Engine := "tgi", LogFile := "./hermes.log" }

/-- A server whose `/health` answers 200 from the request numbered `n` on; every
other request is refused after 1 ms. -/
def healthAfter (n : Nat) : Env where
  http := fun i _ url =>
    if n ≤ i ∧ url = "http://127.0.0.1:30000/health" then
      { took := 1000000, result := .response 200 }
    else { took := 1000000, result := .transportError "connection refused" }

/-- A server that never answers: every request runs into the 5 s client timeout. -/
def slowEnv : Env where
  http := fun _ _ _ => { took := 5000000000, result := .transportError "Client.Timeout exceeded" }

/-- A host without a GPU: `nvidia-smi` is not on the PATH. -/
def noGPU : Env where
  lookPath := fun _ name => name ≠ "nvidia-smi"

/-- The application context with the default log file. -/
def ctx0 : commands.AppContext := { LogFile := "./hermes.log" }

/-- The flags of `hermes run --engine sglang --model demo --readiness-timeout 4`. -/
def flags0 : commands.RunFlags :=
  { engineName := "sglang", model := "demo", readinessTimeout := 4 }

/-- A host where no program can be started: every command fails to launch. -/
def envNoLaunch : Env where
  cmdRun := fun _ _ _ => { err := some (.other "executable file not found in $PATH") }

/-- A host where `uv` is not usable and the bare `python` has the package: the first
probe exits with status 1, every other command succeeds and prints a version. -/
def envBarePython : Env where
  cmdRun := fun _ name _ =>
    if name = "uv" then { stderr := "error: no virtual environment\n", err := some (.exit 1 "exit status 1") }
    else { stdout := "0.4.6\n" }

/-- The flags of `hermes run --engine sglang --model demo`. -/
def flagsA : commands.RunFlags :=
  { engineName := "sglang", model := "demo" }

/-- The flags of `hermes run --engine sglang --model demo --install bogus`. -/
def flagsBogus : commands.RunFlags :=
  { engineName := "sglang", model := "demo", installMode := "bogus" }

/-- The flags of `hermes serve --model demo --tp 0 --port 70000 --daemon`. -/
def flagsZero : commands.ServeFlags :=
  { model := "demo", tp := 0, port := 70000, daemon := true }

/-- A host on which every signal arrives before the child exits. -/
def envSignal : Env where
  signalFirst := true

/-- A host whose child exits by itself with a failure. -/
def envChildFails : Env where
  wait := some "exit status 1"

/-- A host that answers no request and runs every command with success. -/
def envDown : Env where

/-- A host whose state file holds bytes that do not parse. -/
def envCorrupt : Env where
  readState := .data "not json"

/-- A daemon configuration with a log file. -/
def cfgDaemonLog : config.ServeConfig :=
  { Engine := "sglang", Model := "demo", TP := 4, Host := "0.0.0.0", Port := 30000,
    Daemon := true, ExtraArgs := "", LogFile := "./hermes.log" }

/-- A host whose state file exists and cannot be read. -/
def envUnreadable : Env where
  readState := .failed "open /root/.cache/hermes/state.json: permission denied"

/-- A server whose `/v1/models` answers 200 at once. -/
def envReady : Env where
  http := fun _ _ url =>
    if url = "http://127.0.0.1:30000/v1/models" then { took := 1000000, result := .response 200 }
    else { took := 1000000, result := .transportError "connection refused" }

/-- A host on which no command can be started by the supervisor. -/
def envNoStart : Env where
  start := fun _ _ => some "exec: \"uv\": executable file not found in $PATH"

/-! ## Theorems -/

/-! ### verify.go -/

theorem checkModels_eq (env : Env) (base : String) (j : Bool) (w : World) :
    commands.checkModels env base j w =
      ((env.http w.requests "GET" (base ++ "/v1/models")).result.isOK,
       (clientDo env "GET" (base ++ "/v1/models") w).2) := by
  simp only [commands.checkModels, clientDo]
  split <;> rename_i h <;> simp only [Prod.mk.injEq] at h <;> obtain ⟨h1, h2⟩ := h
  · rw [← h2]; simp [h1, HTTPResult.isOK]
  · split <;> simp_all [HTTPResult.isOK]

theorem checkHealth_eq (env : Env) (base : String) (j : Bool) (w : World) :
    commands.checkHealth env base j w =
      ((env.http w.requests "GET" (base ++ "/health")).result.isOK,
       (clientDo env "GET" (base ++ "/health") w).2) := by
  simp only [commands.checkHealth, clientDo]
  split <;> rename_i h <;> simp only [Prod.mk.injEq] at h <;> obtain ⟨h1, h2⟩ := h
  · rw [← h2]; simp [h1, HTTPResult.isOK]
  · split <;> simp_all [HTTPResult.isOK]

theorem checkChatCompletion_eq (env : Env) (base : String) (j : Bool) (w : World) :
    commands.checkChatCompletion env base j w =
      if (env.newRequest "POST" (base ++ "/v1/chat/completions")).isSome then (false, w)
      else
        ((env.http w.requests "POST" (base ++ "/v1/chat/completions")).result.isOK,
         (clientDo env "POST" (base ++ "/v1/chat/completions") w).2) := by
  simp only [commands.checkChatCompletion, clientDo]
  cases env.newRequest "POST" (base ++ "/v1/chat/completions") with
  | some e => rfl
  | none =>
    simp only [Option.isSome_none, Bool.false_eq_true, if_false]
    split <;> rename_i h <;> simp only [Prod.mk.injEq] at h <;> obtain ⟨h1, h2⟩ := h
    · rw [← h2]; simp [h1, HTTPResult.isOK]
    · split <;> simp_all [HTTPResult.isOK]

theorem isOK_iff (r : HTTPResult) : r.isOK = true ↔ r = .response 200 := by
  cases r <;> simp [HTTPResult.isOK, StatusOK]

theorem runVerify_fields (env : Env) (base : String) (timeout : Int) (testChat jsonOut : Bool)
    (w : World) :
    let m := (env.http w.requests "GET" (base ++ "/v1/models")).result.isOK
    let h := (env.http (w.requests + 1) "GET" (base ++ "/health")).result.isOK
    let r := (commands.runVerify env base timeout testChat jsonOut w).1
    r.ModelsOK = m ∧ r.HealthOK = h ∧
    r.ChatOK = (testChat && (env.newRequest "POST" (base ++ "/v1/chat/completions")).isNone &&
      (env.http (w.requests + 2) "POST" (base ++ "/v1/chat/completions")).result.isOK) ∧
    r.Status = (if m || h then "ok" else "fail") ∧
    r.Message = (if m || h then "Server is operational" else "Server not responding") ∧
    r.Endpoint = base := by
  simp only [commands.runVerify, checkModels_eq, checkHealth_eq, checkChatCompletion_eq, clientDo]
  cases testChat <;> cases env.newRequest "POST" (base ++ "/v1/chat/completions") <;>
  cases (env.http w.requests "GET" (base ++ "/v1/models")).result.isOK <;>
  cases (env.http (w.requests + 1) "GET" (base ++ "/health")).result.isOK <;> simp

/-- C1: the status of `runVerify` is "ok" exactly when the models probe or the health
probe succeeded and "fail" otherwise; it is a function of the outcomes of these two
probes alone, so neither the outcome of the chat probe nor whether it is run (nor
the output mode or the client timeout) changes it. -/
theorem runVerify_status_iff (env : Env) (base : String) (timeout : Int)
    (testChat jsonOut : Bool) (w : World) :
    let r := (commands.runVerify env base timeout testChat jsonOut w).1
    (r.Status = "ok" ↔ (r.ModelsOK = true ∨ r.HealthOK = true)) ∧
    (r.Status = "fail" ↔ ¬ (r.ModelsOK = true ∨ r.HealthOK = true)) ∧
    (∀ (env2 : Env) (timeout2 : Int) (testChat2 jsonOut2 : Bool),
      env2.http w.requests "GET" (base ++ "/v1/models") =
        env.http w.requests "GET" (base ++ "/v1/models") →
      env2.http (w.requests + 1) "GET" (base ++ "/health") =
        env.http (w.requests + 1) "GET" (base ++ "/health") →
      (commands.runVerify env2 base timeout2 testChat2 jsonOut2 w).1.Status = r.Status) := by
  intro r
  obtain ⟨hm, hh, -, hs, -, -⟩ := runVerify_fields env base timeout testChat jsonOut w
  refine ⟨?_, ?_, ?_⟩
  · show r.Status = "ok" ↔ _
    rw [show r.Status = _ from hs, show r.ModelsOK = _ from hm, show r.HealthOK = _ from hh]
    cases (env.http w.requests "GET" (base ++ "/v1/models")).result.isOK <;>
    cases (env.http (w.requests + 1) "GET" (base ++ "/health")).result.isOK <;> simp
  · show r.Status = "fail" ↔ _
    rw [show r.Status = _ from hs, show r.ModelsOK = _ from hm, show r.HealthOK = _ from hh]
    cases (env.http w.requests "GET" (base ++ "/v1/models")).result.isOK <;>
    cases (env.http (w.requests + 1) "GET" (base ++ "/health")).result.isOK <;> simp
  · intro env2 timeout2 testChat2 jsonOut2 h1 h2
    obtain ⟨-, -, -, hs2, -, -⟩ := runVerify_fields env2 base timeout2 testChat2 jsonOut2 w
    rw [show r.Status = _ from hs, hs2, h1, h2]

/-- Witness of C1: the status is "ok" for the stub server, and it stays so for a
server that differs in its chat answer with the chat probe switched on. -/
theorem runVerify_status_iff_witness :
    (commands.runVerify stubC "http://127.0.0.1:30000" 60000000000 false false world0).1.Status
      = "ok" ∧
    (commands.runVerify stubChat "http://127.0.0.1:30000" 5 true true world0).1.Status =
    (commands.runVerify stubC "http://127.0.0.1:30000" 60000000000 false false world0).1.Status :=
  ⟨by decide,
   (runVerify_status_iff stubC "http://127.0.0.1:30000" 60000000000 false false world0).2.2
     stubChat 5 true true (by decide) (by decide)⟩

/-- C2: the models probe succeeds exactly when `GET /v1/models` comes back without a
transport error and with status 200, the health probe exactly when `GET /health`
does; for a server that answers 200 on `/v1/models` and 503 on `/health`, with the
chat probe off, `runVerify` reports ModelsOK, not HealthOK, not ChatOK, status "ok". -/
theorem probes_ok_iff_200 (env : Env) (base : String) (timeout : Int) (jsonOut : Bool)
    (w : World) :
    ((commands.checkModels env base jsonOut w).1 = true ↔
      (env.http w.requests "GET" (base ++ "/v1/models")).result = .response 200) ∧
    ((commands.checkHealth env base jsonOut w).1 = true ↔
      (env.http w.requests "GET" (base ++ "/health")).result = .response 200) ∧
    ((env.http w.requests "GET" (base ++ "/v1/models")).result = .response 200 →
     (env.http (w.requests + 1) "GET" (base ++ "/health")).result = .response 503 →
      (commands.runVerify env base timeout false jsonOut w).1.ModelsOK = true ∧
      (commands.runVerify env base timeout false jsonOut w).1.HealthOK = false ∧
      (commands.runVerify env base timeout false jsonOut w).1.ChatOK = false ∧
      (commands.runVerify env base timeout false jsonOut w).1.Status = "ok") := by
  refine ⟨?_, ?_, ?_⟩
  · rw [checkModels_eq]; exact isOK_iff _
  · rw [checkHealth_eq]; exact isOK_iff _
  · intro h1 h2
    obtain ⟨hm, hh, hc, hs, -, -⟩ := runVerify_fields env base timeout false jsonOut w
    simp only [h1, h2] at hm hh hs
    refine ⟨hm.trans (by decide), hh.trans (by decide), hc.trans (by simp), hs.trans (by decide)⟩

/-- Witness of C2: the stub server of scenario C. -/
theorem probes_ok_iff_200_witness :
    (commands.runVerify stubC "http://127.0.0.1:30000" 60000000000 false false world0).1.ModelsOK
      = true ∧
    (commands.runVerify stubC "http://127.0.0.1:30000" 60000000000 false false world0).1.HealthOK
      = false ∧
    (commands.runVerify stubC "http://127.0.0.1:30000" 60000000000 false false world0).1.ChatOK
      = false ∧
    (commands.runVerify stubC "http://127.0.0.1:30000" 60000000000 false false world0).1.Status
      = "ok" :=
  (probes_ok_iff_200 stubC "http://127.0.0.1:30000" 60000000000 false world0).2.2
    (by decide) (by decide)

/-! ### package engine -/

theorem fieldsScan_nil_of_all_space (f : Char → Bool) :
    ∀ cs : List Char, (∀ c ∈ cs, f c = true) → strings.fieldsScan f cs [] = []
  | [], _ => by simp [strings.fieldsScan]
  | c :: cs, h => by
    have hc : f c = true := h c (List.mem_cons_self _ _)
    have hcs : ∀ x ∈ cs, f x = true := fun x hx => h x (List.mem_cons_of_mem _ hx)
    simp [strings.fieldsScan, hc, fieldsScan_nil_of_all_space f cs hcs]

theorem Fields_empty : strings.Fields "" = [] := by decide

/-- The arguments that `VLLMEngine.ServeCommand` always produces, before the extras. -/
theorem VLLM_ServeCommand_args (cfg : config.ServeConfig) :
    (engine.VLLMEngine.ServeCommand cfg).2 =
      ["run", "vllm", "serve", cfg.Model, "--host", cfg.Host,
       "--port", strconv.Itoa cfg.Port,
       "--tensor-parallel-size", strconv.Itoa cfg.TP,
       "--trust-remote-code"] ++ strings.Fields cfg.ExtraArgs := by
  unfold engine.VLLMEngine.ServeCommand
  by_cases h : cfg.ExtraArgs = ""
  · simp [h, Fields_empty]
  · simp [h]

/-- C5: `VLLMEngine.ServeCommand` ends with the whitespace-separated fields of
`ExtraArgs` after its fixed arguments, for every configuration; but
`SGLangEngine.ServeCommand` never reads `ExtraArgs`: for the extra arguments
"--mem-fraction-static 0.8" it returns its thirteen fixed arguments only, and the
two fields are not at the end of the list. -/
theorem SGLang_ServeCommand_drops_ExtraArgs :
    (∀ cfg : config.ServeConfig,
      strings.Fields cfg.ExtraArgs <:+ (engine.VLLMEngine.ServeCommand cfg).2) ∧
    strings.Fields cfgExtra.ExtraArgs = ["--mem-fraction-static", "0.8"] ∧
    (engine.SGLangEngine.ServeCommand cfgExtra).2 =
      ["run", "python", "-m", "sglang.launch_server", "--model-path", "demo",
       "--trust-remote-code", "--tp-size", "4", "--host", "0.0.0.0", "--port", "30000"] ∧
    ¬ (strings.Fields cfgExtra.ExtraArgs <:+ (engine.SGLangEngine.ServeCommand cfgExtra).2) := by
  refine ⟨fun cfg => ?_, by decide, by decide, by decide⟩
  rw [VLLM_ServeCommand_args]
  exact List.suffix_append _ _

/-- C6: both backends return the program "uv"; the SGLang arguments are exactly the
thirteen listed ones, and the vLLM arguments start with the eleven listed ones, with
the model, host, port and parallelism degree each directly after its flag. -/
theorem ServeCommand_fixed_arguments (cfg : config.ServeConfig) :
    (engine.SGLangEngine.ServeCommand cfg).1 = "uv" ∧
    (engine.VLLMEngine.ServeCommand cfg).1 = "uv" ∧
    (engine.SGLangEngine.ServeCommand cfg).2 =
      ["run", "python", "-m", "sglang.launch_server",
       "--model-path", cfg.Model,
       "--trust-remote-code",
       "--tp-size", strconv.Itoa cfg.TP,
       "--host", cfg.Host,
       "--port", strconv.Itoa cfg.Port] ∧
    ["run", "vllm", "serve", cfg.Model,
     "--host", cfg.Host,
     "--port", strconv.Itoa cfg.Port,
     "--tensor-parallel-size", strconv.Itoa cfg.TP,
     "--trust-remote-code"] <+: (engine.VLLMEngine.ServeCommand cfg).2 := by
  refine ⟨rfl, rfl, rfl, ?_⟩
  rw [VLLM_ServeCommand_args]
  exact List.prefix_append _ _

/-- C7: `ServeCommand` of either backend depends only on the model, the parallelism
degree, the host, the port and the extra arguments: two configurations that agree
on these five fields (in particular two equal ones) give the same program name and
the same argument list, whatever their Engine, Daemon and LogFile fields. -/
theorem ServeCommand_deterministic (c1 c2 : config.ServeConfig)
    (hModel : c1.Model = c2.Model) (hTP : c1.TP = c2.TP) (hHost : c1.Host = c2.Host)
    (hPort : c1.Port = c2.Port) (hExtra : c1.ExtraArgs = c2.ExtraArgs) :
    engine.SGLangEngine.ServeCommand c1 = engine.SGLangEngine.ServeCommand c2 ∧
    engine.VLLMEngine.ServeCommand c1 = engine.VLLMEngine.ServeCommand c2 ∧
    ∀ e : engine.Engine, e.ServeCommand c1 = e.ServeCommand c2 := by
  have h1 : engine.SGLangEngine.ServeCommand c1 = engine.SGLangEngine.ServeCommand c2 := by
    simp only [engine.SGLangEngine.ServeCommand, hModel, hTP, hHost, hPort]
  have h2 : engine.VLLMEngine.ServeCommand c1 = engine.VLLMEngine.ServeCommand c2 := by
    simp only [engine.VLLMEngine.ServeCommand, hModel, hTP, hHost, hPort, hExtra]
  refine ⟨h1, h2, fun e => ?_⟩
  cases e
  · exact h1
  · exact h2

/-- Witness of C7: two configurations that differ in Engine, Daemon and LogFile. -/
theorem ServeCommand_deterministic_witness :
    cfgExtra ≠ cfgExtraOther ∧
    engine.SGLangEngine.ServeCommand cfgExtra = engine.SGLangEngine.ServeCommand cfgExtraOther ∧
    engine.VLLMEngine.ServeCommand cfgExtra = engine.VLLMEngine.ServeCommand cfgExtraOther :=
  ⟨by decide,
   (ServeCommand_deterministic cfgExtra cfgExtraOther rfl rfl rfl rfl rfl).1,
   (ServeCommand_deterministic cfgExtra cfgExtraOther rfl rfl rfl rfl rfl).2.1⟩

/-- C8: `engine.Get` maps "sglang" to the SGLang adapter and "vllm" to the vLLM
adapter, whose names are these identifiers, and every other identifier to no
adapter; an adapter that is returned has the identifier it was selected by as its
name; on no adapter `runServe` returns the "unknown engine" error and performs no
effect (no log file opened, no command started). -/
theorem Get_pure_mapping :
    engine.Get "sglang" = some .SGLangEngine ∧
    engine.Engine.Name .SGLangEngine = "sglang" ∧
    engine.Get "vllm" = some .VLLMEngine ∧
    engine.Engine.Name .VLLMEngine = "vllm" ∧
    (∀ name : config.Engine, name ≠ "sglang" → name ≠ "vllm" → engine.Get name = none) ∧
    (∀ (name : config.Engine) (e : engine.Engine), engine.Get name = some e → e.Name = name) ∧
    (∀ (env : Env) (cfg : config.ServeConfig) (w : World), engine.Get cfg.Engine = none →
      commands.runServe env cfg w = (some ("unknown engine: " ++ cfg.Engine), w)) := by
  refine ⟨by decide, by decide, by decide, by decide, ?_, ?_, ?_⟩
  · intro name h1 h2
    simp [engine.Get, config.EngineSGLang, config.EngineVLLM, h1, h2]
  · intro name e h
    unfold engine.Get at h
    split at h
    · rename_i hn; cases h; exact hn.symm
    · split at h
      · rename_i hn; cases h; exact hn.symm
      · cases h
  · intro env cfg w h
    simp [commands.runServe, h]

/-- Witness of C8: the identifier "tgi" selects no adapter, and `runServe` on it
returns the error and leaves the world as it was. -/
theorem Get_pure_mapping_witness :
    engine.Get "tgi" = none ∧
    commands.runServe stubC cfgUnknown world0 = (some "unknown engine: tgi", world0) ∧
    engine.Engine.Name .VLLMEngine = "vllm" :=
  ⟨Get_pure_mapping.2.2.2.2.1 "tgi" (by decide) (by decide),
   Get_pure_mapping.2.2.2.2.2.2 stubC cfgUnknown world0 (by decide),
   Get_pure_mapping.2.2.2.2.2.1 "vllm" .VLLMEngine (by decide)⟩

/-! ### run.go: the readiness wait -/

theorem checkInterval_eq : commands.checkInterval = 2000000000 := by decide

theorem cycleTook_shift (env : Env) (base : String) (n0 k : Nat) :
    cycleTook env base (n0 + 2) k = cycleTook env base n0 (k + 1) := by
  unfold cycleTook
  rw [show n0 + 2 + 2 * k = n0 + 2 * (k + 1) by omega]

theorem cycleReady_shift (env : Env) (base : String) (n0 k : Nat) :
    cycleReady env base (n0 + 2) k = cycleReady env base n0 (k + 1) := by
  unfold cycleReady
  rw [show n0 + 2 + 2 * k = n0 + 2 * (k + 1) by omega]

theorem cycleStart_shift (env : Env) (base : String) (now : Int) (n0 : Nat) :
    ∀ k, cycleStart env base (now + cycleTook env base n0 0 + commands.checkInterval) (n0 + 2) k
      = cycleStart env base now n0 (k + 1)
  | 0 => by simp [cycleStart]
  | k + 1 => by
    rw [cycleStart, cycleStart_shift env base now n0 k, cycleTook_shift]
    rfl

theorem cycleStart_ge (env : Env) (base : String) (now : Int) (n0 : Nat) :
    ∀ k, now ≤ cycleStart env base now n0 k
  | 0 => by simp [cycleStart]
  | k + 1 => by
    have h := cycleStart_ge env base now n0 k
    have hi := checkInterval_eq
    simp only [cycleStart]
    omega

/-- One pass over the two endpoints: it succeeds exactly when the cycle is ready;
when it fails, two requests were issued and the clock advanced by their durations. -/
theorem probeEndpoints_endpoints (env : Env) (base : String) (w : World) :
    (commands.probeEndpoints env base commands.endpoints w).1 = cycleReady env base w.requests 0 ∧
    (cycleReady env base w.requests 0 = false →
      (commands.probeEndpoints env base commands.endpoints w).2.now =
        w.now + cycleTook env base w.requests 0 ∧
      (commands.probeEndpoints env base commands.endpoints w).2.requests = w.requests + 2) := by
  simp only [commands.probeEndpoints, commands.endpoints, clientDo, cycleReady, cycleTook,
    Nat.mul_zero, Nat.add_zero]
  cases h1 : (env.http w.requests "GET" (base ++ "/v1/models")).result.isOK <;>
  cases h2 : (env.http (w.requests + 1) "GET" (base ++ "/health")).result.isOK <;>
  simp [h1, h2, add_assoc]

theorem waitLoop_past_deadline (env : Env) (base : String) (deadline : Int) (fuel : Nat)
    (w : World) (h : ¬ w.now < deadline) :
    commands.waitLoop env base deadline (fuel + 1) w = some (timeoutError, w) := by
  simp [commands.waitLoop, h, timeoutError]

theorem waitLoop_ready (env : Env) (base : String) (deadline : Int) (fuel : Nat)
    (w : World) (h : w.now < deadline) (hr : cycleReady env base w.requests 0 = true) :
    commands.waitLoop env base deadline (fuel + 1) w =
      some (none, (commands.probeEndpoints env base commands.endpoints w).2) := by
  have hp := (probeEndpoints_endpoints env base w).1
  rw [hr] at hp
  rcases hpe : commands.probeEndpoints env base commands.endpoints w with ⟨b, w1⟩
  rw [hpe] at hp
  simp only at hp
  subst hp
  simp [commands.waitLoop, h, hpe]

theorem waitLoop_not_ready (env : Env) (base : String) (deadline : Int) (fuel : Nat)
    (w : World) (h : w.now < deadline) (hr : cycleReady env base w.requests 0 = false) :
    commands.waitLoop env base deadline (fuel + 1) w =
      commands.waitLoop env base deadline fuel
        (commands.sleep commands.checkInterval
          (commands.probeEndpoints env base commands.endpoints w).2) := by
  have hp := (probeEndpoints_endpoints env base w).1
  rw [hr] at hp
  rcases hpe : commands.probeEndpoints env base commands.endpoints w with ⟨b, w1⟩
  rw [hpe] at hp
  simp only at hp
  subst hp
  simp [commands.waitLoop, h, hpe]

/-- The loop of `waitForReadiness`, given enough iterations: it ends, with nil or
with the timeout error, and it ends with nil exactly when some poll cycle that
starts before the deadline is ready. -/
theorem waitLoop_spec (env : Env) (base : String) (deadline : Int) :
    ∀ (fuel : Nat) (w : World), deadline - w.now ≤ fuel * commands.checkInterval →
      ∃ r, commands.waitLoop env base deadline (fuel + 1) w = some r ∧
        (r.1 = none ∨ r.1 = timeoutError) ∧
        (r.1 = none ↔ ∃ k, cycleStart env base w.now w.requests k < deadline ∧
          cycleReady env base w.requests k = true) ∧
        (¬ w.now < deadline → r.2 = w) := by
  intro fuel
  induction fuel with
  | zero =>
    intro w h
    have hlt : ¬ w.now < deadline := by simp at h; omega
    refine ⟨_, waitLoop_past_deadline env base deadline 0 w hlt, Or.inr rfl, ?_, fun _ => rfl⟩
    constructor
    · intro h0; simp [timeoutError] at h0
    · rintro ⟨k, hk, -⟩
      have := cycleStart_ge env base w.now w.requests k
      omega
  | succ f ih =>
    intro w h
    by_cases hlt : w.now < deadline
    · cases hr : cycleReady env base w.requests 0 with
      | true =>
        refine ⟨_, waitLoop_ready env base deadline (f + 1) w hlt hr, Or.inl rfl, ?_,
          fun h0 => absurd hlt h0⟩
        exact ⟨fun _ => ⟨0, by simpa [cycleStart] using hlt, hr⟩, fun _ => rfl⟩
      | false =>
        obtain ⟨hnow, hreq⟩ := (probeEndpoints_endpoints env base w).2 hr
        have hi := checkInterval_eq
        have hw : (commands.sleep commands.checkInterval
            (commands.probeEndpoints env base commands.endpoints w).2).now =
            w.now + cycleTook env base w.requests 0 + commands.checkInterval := by
          simp [commands.sleep, hnow]
        have hq : (commands.sleep commands.checkInterval
            (commands.probeEndpoints env base commands.endpoints w).2).requests =
            w.requests + 2 := by
          simp [commands.sleep, hreq]
        obtain ⟨r, hr1, hr2, hr3, -⟩ := ih (commands.sleep commands.checkInterval
            (commands.probeEndpoints env base commands.endpoints w).2) (by
              rw [hw]; push_cast at h ⊢; rw [hi] at h ⊢; omega)
        refine ⟨r, ?_, hr2, ?_, fun h0 => absurd hlt h0⟩
        · rw [waitLoop_not_ready env base deadline (f + 1) w hlt hr]; exact hr1
        · rw [hr3, hw, hq]
          constructor
          · rintro ⟨k, hk1, hk2⟩
            exact ⟨k + 1, by rwa [← cycleStart_shift], by rwa [← cycleReady_shift]⟩
          · rintro ⟨k, hk1, hk2⟩
            cases k with
            | zero => rw [hr] at hk2; cases hk2
            | succ k => exact ⟨k, by rwa [cycleStart_shift], by rwa [cycleReady_shift]⟩
    · refine ⟨_, waitLoop_past_deadline env base deadline (f + 1) w hlt, Or.inr rfl, ?_,
        fun _ => rfl⟩
      constructor
      · intro h0; simp [timeoutError] at h0
      · rintro ⟨k, hk, -⟩
        have := cycleStart_ge env base w.now w.requests k
        omega

theorem waitFuel_enough (timeout : Int) :
    ∃ f : Nat, commands.waitFuel timeout = f + 1 ∧ timeout ≤ f * commands.checkInterval := by
  refine ⟨(timeout / commands.checkInterval).toNat + 1, rfl, ?_⟩
  rw [checkInterval_eq]
  push_cast
  have h1 : timeout / 2000000000 ≤ ((timeout / 2000000000).toNat : Int) := Int.self_le_toNat _
  have h2 := Int.lt_ediv_add_one_mul_self timeout (show (0 : Int) < 2000000000 by norm_num)
  nlinarith

/-- The loop of `waitForReadiness` is given enough iterations: it never runs out. -/
theorem waitLoop_terminates (env : Env) (base : String) (timeout : Int) (w : World) :
    commands.waitLoop env base (w.now + timeout) (commands.waitFuel timeout) w ≠ none := by
  obtain ⟨f, hf1, hf2⟩ := waitFuel_enough timeout
  obtain ⟨r, hr, -⟩ := waitLoop_spec env base (w.now + timeout) f w (by omega)
  rw [hf1, hr]
  simp

/-- C3: `waitForReadiness` returns nil exactly when some poll cycle that starts
strictly before the deadline has a probe (`/v1/models` or `/health`) answering 200;
otherwise it returns the timeout error, and nothing else is ever returned: transport
errors and other statuses only let the loop go on. With a timeout of zero or less it
returns the timeout error and the world is unchanged (no request was issued). -/
theorem waitForReadiness_nil_iff (env : Env) (base : String) (timeout : Int) (w : World) :
    ((commands.waitForReadiness env base timeout w).1 = none ↔
      ∃ k, cycleStart env base w.now w.requests k < w.now + timeout ∧
        cycleReady env base w.requests k = true) ∧
    ((commands.waitForReadiness env base timeout w).1 = none ∨
      (commands.waitForReadiness env base timeout w).1 = timeoutError) ∧
    (timeout ≤ 0 → commands.waitForReadiness env base timeout w = (timeoutError, w)) := by
  obtain ⟨f, hf1, hf2⟩ := waitFuel_enough timeout
  obtain ⟨r, hr, h1, h2, h3⟩ := waitLoop_spec env base (w.now + timeout) f w (by omega)
  have hw : commands.waitForReadiness env base timeout w = r := by
    simp [commands.waitForReadiness, hf1, hr]
  rw [hw]
  refine ⟨h2, h1, fun h0 => ?_⟩
  have h4 := h3 (by omega)
  have h5 : ¬ r.1 = none := by
    rw [h2]
    rintro ⟨k, hk, -⟩
    have := cycleStart_ge env base w.now w.requests k
    omega
  rcases h1 with h1 | h1
  · exact absurd h1 h5
  · exact Prod.ext h1 h4

/-- Witness of C3: `/health` answers 200 in the second poll cycle, which starts before
a deadline of 4 s, so the wait returns nil; and with a timeout of 0 the wait returns
the timeout error untouched, even for a server that is ready. -/
theorem waitForReadiness_nil_iff_witness :
    (commands.waitForReadiness (healthAfter 3) "http://127.0.0.1:30000" (4 * Second) world0).1
      = none ∧
    commands.waitForReadiness stubC "http://127.0.0.1:30000" 0 world0 = (timeoutError, world0) :=
  ⟨(waitForReadiness_nil_iff (healthAfter 3) "http://127.0.0.1:30000" (4 * Second) world0).1.mpr
     ⟨1, by decide, by decide⟩,
   (waitForReadiness_nil_iff stubC "http://127.0.0.1:30000" 0 world0).2.2 (by decide)⟩

/-- The loop of `waitForReadiness` against a server that never answers 200 and whose
requests take at most `T`: it ends with the timeout error, not before the deadline
and less than two requests and one interval after it. -/
theorem waitLoop_never_ready (env : Env) (base : String) (deadline : Int) (T : Nat)
    (hready : ∀ n u, (env.http n "GET" u).result.isOK = false)
    (htook : ∀ n u, (env.http n "GET" u).took ≤ T) :
    ∀ (fuel : Nat) (w : World), deadline - w.now ≤ fuel * commands.checkInterval →
      ∃ w1, commands.waitLoop env base deadline (fuel + 1) w = some (timeoutError, w1) ∧
        (w.now < deadline →
          deadline ≤ w1.now ∧ w1.now < deadline + 2 * T + commands.checkInterval) ∧
        (¬ w.now < deadline → w1 = w) := by
  intro fuel
  induction fuel with
  | zero =>
    intro w h
    have hlt : ¬ w.now < deadline := by simp at h; omega
    exact ⟨w, waitLoop_past_deadline env base deadline 0 w hlt, fun h0 => absurd h0 hlt,
      fun _ => rfl⟩
  | succ f ih =>
    intro w h
    by_cases hlt : w.now < deadline
    · have hr : cycleReady env base w.requests 0 = false := by simp [cycleReady, hready]
      obtain ⟨hnow, -⟩ := (probeEndpoints_endpoints env base w).2 hr
      have hi := checkInterval_eq
      have hw : (commands.sleep commands.checkInterval
          (commands.probeEndpoints env base commands.endpoints w).2).now =
          w.now + cycleTook env base w.requests 0 + commands.checkInterval := by
        simp [commands.sleep, hnow]
      have ht : cycleTook env base w.requests 0 ≤ 2 * T := by
        have h1 := htook (w.requests + 2 * 0) (base ++ "/v1/models")
        have h2 := htook (w.requests + 2 * 0 + 1) (base ++ "/health")
        unfold cycleTook
        omega
      obtain ⟨w1, hw1, hw2, hw3⟩ := ih (commands.sleep commands.checkInterval
          (commands.probeEndpoints env base commands.endpoints w).2) (by
            rw [hw]; push_cast at h ⊢; rw [hi] at h ⊢; omega)
      refine ⟨w1, ?_, fun _ => ?_, fun h0 => absurd hlt h0⟩
      · rw [waitLoop_not_ready env base deadline (f + 1) w hlt hr]; exact hw1
      · by_cases hlt2 : (commands.sleep commands.checkInterval
            (commands.probeEndpoints env base commands.endpoints w).2).now < deadline
        · exact hw2 hlt2
        · rw [hw3 hlt2]
          rw [hw] at hlt2 ⊢
          constructor <;> omega
    · exact ⟨w, waitLoop_past_deadline env base deadline (f + 1) w hlt,
        fun h0 => absurd h0 hlt, fun _ => rfl⟩

/-- C4, as amended: against a server that never answers 200 and whose requests each
take at most `T`, a wait with a timeout that is not negative returns the timeout
error, not before the timeout has elapsed and less than the timeout plus one whole
poll cycle (two requests of at most `T` and one interval) after its start. -/
theorem waitForReadiness_deadline_bound (env : Env) (base : String) (timeout : Int)
    (w : World) (T : Nat) (h0 : 0 ≤ timeout)
    (hready : ∀ n u, (env.http n "GET" u).result.isOK = false)
    (htook : ∀ n u, (env.http n "GET" u).took ≤ T) :
    (commands.waitForReadiness env base timeout w).1 = timeoutError ∧
    timeout ≤ (commands.waitForReadiness env base timeout w).2.now - w.now ∧
    (commands.waitForReadiness env base timeout w).2.now - w.now
      < timeout + 2 * T + commands.checkInterval := by
  obtain ⟨f, hf1, hf2⟩ := waitFuel_enough timeout
  obtain ⟨w1, hr, h1, h2⟩ :=
    waitLoop_never_ready env base (w.now + timeout) T hready htook f w (by omega)
  have hw : commands.waitForReadiness env base timeout w = (timeoutError, w1) := by
    simp [commands.waitForReadiness, hf1, hr]
  rw [hw]
  have hi := checkInterval_eq
  refine ⟨rfl, ?_, ?_⟩
  · by_cases hlt : w.now < w.now + timeout
    · have := (h1 hlt).1; simp only; omega
    · have := h2 hlt; subst this; simp only; omega
  · by_cases hlt : w.now < w.now + timeout
    · have := (h1 hlt).2; simp only; omega
    · have := h2 hlt; subst this; simp only; omega

/-- Witness of C4 as amended: requests that take 5 s, timeout 4 s. -/
theorem waitForReadiness_deadline_bound_witness :
    (commands.waitForReadiness slowEnv "http://127.0.0.1:30000" (4 * Second) world0).1
      = timeoutError ∧
    4 * Second ≤
      (commands.waitForReadiness slowEnv "http://127.0.0.1:30000" (4 * Second) world0).2.now
        - world0.now ∧
    (commands.waitForReadiness slowEnv "http://127.0.0.1:30000" (4 * Second) world0).2.now
        - world0.now < 4 * Second + 2 * (5000000000 : Nat) + commands.checkInterval :=
  waitForReadiness_deadline_bound slowEnv "http://127.0.0.1:30000" (4 * Second) world0
    5000000000 (by decide) (fun _ _ => rfl) (fun _ _ => Nat.le_refl _)

/-- Counterexample to C4: no request answers 200 and each takes the 5 s of the
client timeout; with a timeout of 4 s the wait returns its timeout error 12 s after
its start, later than timeout + one interval = 6 s. -/
theorem waitForReadiness_later_than_interval :
    (∀ n m u, (slowEnv.http n m u).result.isOK = false ∧
      ((slowEnv.http n m u).took : Int) ≤ commands.readinessClientTimeout) ∧
    (commands.waitForReadiness slowEnv "http://127.0.0.1:30000" (4 * Second) world0).1
      = timeoutError ∧
    (commands.waitForReadiness slowEnv "http://127.0.0.1:30000" (4 * Second) world0).2.now
      = world0.now + 12 * Second ∧
    ¬ ((commands.waitForReadiness slowEnv "http://127.0.0.1:30000" (4 * Second) world0).2.now
      ≤ world0.now + 4 * Second + commands.checkInterval) :=
  ⟨fun _ _ _ =>
    ⟨rfl, (by decide : ((5000000000 : Nat) : Int) ≤ commands.readinessClientTimeout)⟩,
   by decide, by decide, by decide⟩

/-! ### Frame lemmas: what each function adds to the trace -/

theorem Appends.refl (P : Event → Bool) (w : World) : Appends P w w :=
  ⟨[], by simp, by simp⟩

theorem Appends.trans {P : Event → Bool} {a b c : World} (h1 : Appends P a b)
    (h2 : Appends P b c) : Appends P a c := by
  obtain ⟨e1, h1, p1⟩ := h1
  obtain ⟨e2, h2, p2⟩ := h2
  refine ⟨e1 ++ e2, by rw [h2, h1, List.append_assoc], ?_⟩
  intro e he
  rcases List.mem_append.mp he with h | h
  · exact p1 e h
  · exact p2 e h

theorem Appends.mono {P Q : Event → Bool} {a b : World} (h : ∀ e, P e = true → Q e = true)
    (h1 : Appends P a b) : Appends Q a b := by
  obtain ⟨e1, h1, p1⟩ := h1
  exact ⟨e1, h1, fun e he => h e (p1 e he)⟩

theorem Appends.emit {P : Event → Bool} (w : World) (e : Event) (h : P e = true) :
    Appends P w (w.emit e) :=
  ⟨[e], rfl, by simpa using h⟩

theorem clientDo_appends {P : Event → Bool} (env : Env) (method url : String) (w : World)
    (h : P (.http method url) = true) : Appends P w (clientDo env method url w).2 :=
  ⟨[.http method url], rfl, by simpa using h⟩

theorem sleep_appends {P : Event → Bool} (d : Int) (w : World) (h : P (.sleep d) = true) :
    Appends P w (commands.sleep d w) :=
  ⟨[.sleep d], rfl, by simpa using h⟩

theorem runVerify_snd (env : Env) (base : String) (timeout : Int) (testChat jsonOut : Bool)
    (w : World) :
    (commands.runVerify env base timeout testChat jsonOut w).2 =
      if testChat ∧ env.newRequest "POST" (base ++ "/v1/chat/completions") = none then
        (clientDo env "POST" (base ++ "/v1/chat/completions")
          (clientDo env "GET" (base ++ "/health")
            (clientDo env "GET" (base ++ "/v1/models") w).2).2).2
      else
        (clientDo env "GET" (base ++ "/health")
          (clientDo env "GET" (base ++ "/v1/models") w).2).2 := by
  simp only [commands.runVerify, checkModels_eq, checkHealth_eq, checkChatCompletion_eq]
  cases testChat <;> cases env.newRequest "POST" (base ++ "/v1/chat/completions") <;>
    simp <;> split <;> rfl

theorem runVerify_appends {P : Event → Bool} (env : Env) (base : String) (timeout : Int)
    (testChat jsonOut : Bool) (w : World)
    (h1 : P (.http "GET" (base ++ "/v1/models")) = true)
    (h2 : P (.http "GET" (base ++ "/health")) = true)
    (h3 : P (.http "POST" (base ++ "/v1/chat/completions")) = true) :
    Appends P w (commands.runVerify env base timeout testChat jsonOut w).2 := by
  rw [runVerify_snd]
  split
  · exact ((clientDo_appends env _ _ _ h1).trans (clientDo_appends env _ _ _ h2)).trans
      (clientDo_appends env _ _ _ h3)
  · exact (clientDo_appends env _ _ _ h1).trans (clientDo_appends env _ _ _ h2)

theorem probeEndpoints_appends {P : Event → Bool} (env : Env) (base : String) :
    ∀ (eps : List String) (w : World), (∀ ep ∈ eps, P (.http "GET" (base ++ ep)) = true) →
      Appends P w (commands.probeEndpoints env base eps w).2
  | [], w, _ => Appends.refl P w
  | ep :: eps, w, h => by
    have h1 : Appends P w (clientDo env "GET" (base ++ ep) w).2 :=
      clientDo_appends env _ _ _ (h ep (List.mem_cons_self _ _))
    have h2 := probeEndpoints_appends env base eps (clientDo env "GET" (base ++ ep) w).2
      (fun x hx => h x (List.mem_cons_of_mem _ hx))
    simp only [commands.probeEndpoints]
    split
    · exact h1
    · exact h1.trans h2

theorem waitLoop_appends {P : Event → Bool} (env : Env) (base : String) (deadline : Int)
    (h : ∀ ep ∈ commands.endpoints, P (.http "GET" (base ++ ep)) = true)
    (hs : ∀ d, P (.sleep d) = true) :
    ∀ (fuel : Nat) (w : World) (r : Err × World),
      commands.waitLoop env base deadline fuel w = some r → Appends P w r.2
  | 0, w, r, hr => by simp [commands.waitLoop] at hr
  | fuel + 1, w, r, hr => by
    have hp := probeEndpoints_appends env base commands.endpoints w h
    by_cases hlt : w.now < deadline
    · cases hc : cycleReady env base w.requests 0 with
      | true =>
        rw [waitLoop_ready env base deadline fuel w hlt hc] at hr
        cases hr
        exact hp
      | false =>
        rw [waitLoop_not_ready env base deadline fuel w hlt hc] at hr
        exact (hp.trans (sleep_appends _ _ (hs _))).trans
          (waitLoop_appends env base deadline h hs fuel _ r hr)
    · rw [waitLoop_past_deadline env base deadline fuel w hlt] at hr
      cases hr
      exact Appends.refl P w

theorem waitForReadiness_appends {P : Event → Bool} (env : Env) (base : String) (timeout : Int)
    (w : World) (h : ∀ ep ∈ commands.endpoints, P (.http "GET" (base ++ ep)) = true)
    (hs : ∀ d, P (.sleep d) = true) :
    Appends P w (commands.waitForReadiness env base timeout w).2 := by
  simp only [commands.waitForReadiness]
  cases hr : commands.waitLoop env base (w.now + timeout) (commands.waitFuel timeout) w with
  | none => exact Appends.refl P w
  | some r => exact waitLoop_appends env base _ h hs _ w r hr

/-! #### The doctor and install phases -/

theorem execx_Run_appends (env : Env) (name : String) (args : List String) (w : World) :
    Appends Event.onHost w (execx.Run env name args w).2 :=
  Appends.emit _ _ rfl

theorem checkNvidiaSMI_appends (env : Env) (j : Bool) (w : World) :
    Appends Event.onHost w (commands.checkNvidiaSMI env j w).2 := by
  unfold commands.checkNvidiaSMI
  simp only [execx.Run]
  split_ifs <;> first | exact Appends.refl _ _ | exact Appends.emit _ _ rfl

theorem checkUV_appends (env : Env) (j : Bool) (w : World) :
    Appends Event.onHost w (commands.checkUV env j w).2 := by
  unfold commands.checkUV
  simp only [execx.Run]
  split_ifs <;> first | exact Appends.refl _ _ | exact Appends.emit _ _ rfl

theorem checkPython_appends (env : Env) (j : Bool) (w : World) :
    Appends Event.onHost w (commands.checkPython env j w).2 := by
  unfold commands.checkPython
  simp only [execx.Run]
  split <;> first | exact Appends.refl _ _ | exact Appends.emit _ _ rfl

/-- The doctor phase, check by check: the three checks all run, in order, and the phase
fails exactly when the status of the nvidia-smi check is not ok. -/
theorem runDoctorPhase_eq (env : Env) (w : World) :
    commands.runDoctorPhase env w =
      (if (commands.checkNvidiaSMI env true w).1.Status = commands.StatusOK then none
       else some "critical doctor checks failed",
       (commands.checkPython env true
         (commands.checkUV env true (commands.checkNvidiaSMI env true w).2).2).2) := by
  simp only [commands.runDoctorPhase, List.foldl]
  by_cases h1 : (commands.checkNvidiaSMI env true w).1.Status = commands.StatusOK <;>
  by_cases h2 : ((commands.checkUV env true (commands.checkNvidiaSMI env true w).2).1.Status
      == commands.StatusOK ||
    (commands.checkUV env true (commands.checkNvidiaSMI env true w).2).1.Status
      == commands.StatusWarning) = true <;>
  by_cases h3 : (commands.checkPython env true
      (commands.checkUV env true (commands.checkNvidiaSMI env true w).2).2).1.Status
      = commands.StatusOK <;>
  simp [h1, h2, h3]

theorem runDoctorPhase_appends (env : Env) (w : World) :
    Appends Event.onHost w (commands.runDoctorPhase env w).2 := by
  rw [runDoctorPhase_eq]
  exact ((checkNvidiaSMI_appends env true w).trans (checkUV_appends env true _)).trans
    (checkPython_appends env true _)

theorem SGLang_CheckInstalled_appends (env : Env) (w : World) :
    Appends Event.onHost w (engine.SGLangEngine.CheckInstalled env w).2 := by
  unfold engine.SGLangEngine.CheckInstalled
  simp only [execx.Run]
  split_ifs <;>
    first
    | exact Appends.emit _ _ rfl
    | exact (Appends.emit _ _ rfl).trans (Appends.emit _ _ rfl)

theorem VLLM_CheckInstalled_appends (env : Env) (w : World) :
    Appends Event.onHost w (engine.VLLMEngine.CheckInstalled env w).2 := by
  unfold engine.VLLMEngine.CheckInstalled
  simp only [execx.Run]
  split_ifs <;>
    first
    | exact Appends.emit _ _ rfl
    | exact (Appends.emit _ _ rfl).trans (Appends.emit _ _ rfl)
    | exact ((Appends.emit _ _ rfl).trans (Appends.emit _ _ rfl)).trans (Appends.emit _ _ rfl)

theorem Engine_CheckInstalled_appends (eng : engine.Engine) (env : Env) (w : World) :
    Appends Event.onHost w (eng.CheckInstalled env w).2 := by
  cases eng
  · exact SGLang_CheckInstalled_appends env w
  · exact VLLM_CheckInstalled_appends env w

theorem Engine_Install_appends (eng : engine.Engine) (env : Env) (w : World) :
    Appends Event.onHost w (eng.Install env w).2 := by
  cases eng
  · show Appends _ w (engine.SGLangEngine.Install env w).2
    unfold engine.SGLangEngine.Install
    simp only [execx.Run]
    split_ifs <;> exact Appends.emit _ _ rfl
  · show Appends _ w (engine.VLLMEngine.Install env w).2
    unfold engine.VLLMEngine.Install
    simp only [execx.Run]
    split_ifs <;> exact Appends.emit _ _ rfl

theorem installEngine_appends (env : Env) (eng : engine.Engine) (selected installed : Bool)
    (w : World) :
    Appends Event.onHost w (commands.installEngine env eng selected installed w).2.2 := by
  unfold commands.installEngine
  split_ifs
  · have h1 := Engine_Install_appends eng env w
    rcases hi : eng.Install env w with ⟨_ | e, w1⟩
    · rw [hi] at h1
      exact h1.trans (Engine_CheckInstalled_appends eng env w1)
    · rw [hi] at h1
      exact h1
  · exact Appends.refl _ _
  · exact Appends.refl _ _

theorem ensureUV_appends (env : Env) (state : Option commands.InstallState) (w : World) :
    Appends Event.onHost w (commands.ensureUV env state w).2 := by
  unfold commands.ensureUV
  simp only [execx.Run]
  split_ifs <;> (try split) <;>
    first
    | exact Appends.refl _ _
    | exact Appends.emit _ _ rfl
    | exact (Appends.emit _ _ rfl).trans (Appends.emit _ _ rfl)

theorem setupVenv_appends (env : Env) (venvDir : String) (state : Option commands.InstallState)
    (w : World) : Appends Event.onHost w (commands.setupVenv env venvDir state w).2 := by
  unfold commands.setupVenv
  simp only [execx.Run]
  split_ifs <;> (try split) <;>
    first
    | exact Appends.refl _ _
    | exact Appends.emit _ _ rfl

theorem saveState_appends (env : Env) (state : commands.InstallState) (w : World) :
    Appends Event.onHost w (commands.saveState env state w).2 := by
  unfold commands.saveState
  split
  · exact Appends.refl _ _
  · exact Appends.emit _ _ rfl

theorem Get_SGLang : engine.Get config.EngineSGLang = some .SGLangEngine := by decide

theorem Get_VLLM : engine.Get config.EngineVLLM = some .VLLMEngine := by decide

theorem Install_appends (env : Env) (f : commands.InstallFlags) (w : World) :
    Appends Event.onHost w (commands.Install env f w).2 := by
  unfold commands.Install
  simp only [Get_SGLang, Get_VLLM]
  split
  · exact Appends.refl _ _
  · have hU := ensureUV_appends env (commands.loadState env).1 w
    rcases hu : commands.ensureUV env (commands.loadState env).1 w with ⟨ru, wu⟩
    rw [hu] at hU
    rcases ru with ⟨_ | e, st⟩ | m
    · simp only []
      have hV : Appends Event.onHost wu
          (if (!f.check) = true ∧ f.installMode ≠ config.InstallNone then
            commands.setupVenv env f.venvDir st wu
           else (commands.Ret.ok (none, st), wu)).2 := by
        split
        · exact setupVenv_appends env _ _ _
        · exact Appends.refl _ _
      rcases hv : (if (!f.check) = true ∧ f.installMode ≠ config.InstallNone then
            commands.setupVenv env f.venvDir st wu
           else (commands.Ret.ok (none, st), wu)) with ⟨rv, wv⟩
      rw [hv] at hV
      have hUV := hU.trans hV
      rcases rv with ⟨_ | e, st2⟩ | m
      · simp only []
        have h1 := Engine_CheckInstalled_appends .SGLangEngine env wv
        rcases hc1 : engine.Engine.CheckInstalled .SGLangEngine env wv with ⟨⟨i1, v1, e1⟩, w1⟩
        rw [hc1] at h1
        simp only []
        cases st2 with
        | none => exact hUV.trans h1
        | some st3 =>
          simp only []
          have h2 := Engine_CheckInstalled_appends .VLLMEngine env w1
          rcases hc2 : engine.Engine.CheckInstalled .VLLMEngine env w1 with ⟨⟨i2, v2, e2⟩, w2⟩
          rw [hc2] at h2
          simp only []
          have h12 : Appends Event.onHost w w2 := (hUV.trans h1).trans h2
          split
          · exact h12
          · split
            · exact h12
            · generalize hi1 : commands.installEngine env engine.Engine.SGLangEngine _ _ w2 = r1
              have h3 : Appends Event.onHost w2 r1.2.2 := hi1 ▸ installEngine_appends _ _ _ _ _
              rcases r1 with ⟨_ | e, upd, w3⟩
              · simp only []
                generalize hi2 : commands.installEngine env engine.Engine.VLLMEngine _ _ w3 = r2
                have h4 : Appends Event.onHost w3 r2.2.2 := hi2 ▸ installEngine_appends _ _ _ _ _
                rcases r2 with ⟨_ | e, upd2, w4⟩
                · exact ((h12.trans h3).trans h4).trans (saveState_appends env _ _)
                · exact (h12.trans h3).trans h4
              · exact h12.trans h3
      · exact hUV
      · exact hUV
    · exact hU
    · exact hU

theorem runInstallPhase_appends (env : Env) (mode : config.InstallMode) (w : World) :
    Appends Event.onHost w (commands.runInstallPhase env mode w).2 := by
  unfold commands.runInstallPhase
  split
  · exact Appends.refl _ w
  · exact Install_appends env _ w

/-- The daemon path adds one event, the start of a command in its own process group. -/
theorem runDaemon_onDaemon (env : Env) (cmd : Cmd) (logFile : Option String)
    (cfg : config.ServeConfig) (w : World) :
    Appends Event.onDaemon w (commands.runDaemon env cmd logFile cfg w).2 := by
  simp only [commands.runDaemon]
  split <;> exact Appends.emit _ _ rfl

/-- With the daemon flag set, `runServe` adds only the opening and closing of the log
file and the start of a command in its own process group. -/
theorem runServe_onDaemon (env : Env) (cfg : config.ServeConfig) (w : World)
    (hd : cfg.Daemon = true) :
    Appends Event.onDaemon w (commands.runServe env cfg w).2 := by
  unfold commands.runServe
  split
  · exact Appends.refl _ w
  · simp only [hd, if_true]
    split
    · split
      · exact Appends.emit _ _ rfl
      · exact ((Appends.emit w (.openLog cfg.LogFile) rfl).trans
          (runDaemon_onDaemon env _ _ cfg _)).trans (Appends.emit _ _ rfl)
    · exact runDaemon_onDaemon env _ _ cfg w

theorem onDaemon_quiet_background (e : Event) (h : e.onDaemon = true) :
    (e.quiet && !e.foreground) = true := by
  cases e <;> simp_all [Event.quiet, Event.foreground, Event.onDaemon]

theorem runDaemon_appends (env : Env) (cmd : Cmd) (logFile : Option String)
    (cfg : config.ServeConfig) (w : World) :
    Appends (fun e => e.quiet && !e.foreground) w (commands.runDaemon env cmd logFile cfg w).2 :=
  (runDaemon_onDaemon env cmd logFile cfg w).mono onDaemon_quiet_background

/-- With the daemon flag set, `runServe` adds only the opening and closing of the log
file and the start of a command in its own process group. -/
theorem runServe_daemon_appends (env : Env) (cfg : config.ServeConfig) (w : World)
    (hd : cfg.Daemon = true) :
    Appends (fun e => e.quiet && !e.foreground) w (commands.runServe env cfg w).2 := by
  unfold commands.runServe
  split
  · exact Appends.refl _ w
  · simp only [hd, if_true]
    split
    · split
      · exact Appends.emit _ _ (by simp [Event.quiet, Event.foreground])
      · exact ((Appends.emit w (.openLog cfg.LogFile)
            (by simp [Event.quiet, Event.foreground])).trans
          (runDaemon_appends env _ _ cfg _)).trans
            (Appends.emit _ _ (by simp [Event.quiet, Event.foreground]))
    · exact runDaemon_appends env _ _ cfg w

theorem phasesOf_appends {w1 w2 : World} (h : Appends Event.quiet w1 w2) :
    phasesOf w2.trace = phasesOf w1.trace := by
  obtain ⟨evs, h1, h2⟩ := h
  rw [h1]
  unfold phasesOf
  rw [List.filterMap_append]
  have : List.filterMap (fun e => match e with
      | Event.phase p => some p
      | _ => none) evs = [] := by
    rw [List.filterMap_eq_nil_iff]
    intro e he
    have := h2 e he
    cases e <;> simp_all [Event.quiet]
  rw [this, List.append_nil]

theorem phasesOf_emit (w : World) (p : Phase) :
    phasesOf (w.emit (.phase p)).trace = phasesOf w.trace ++ [p] := by
  simp [phasesOf, World.emit, List.filterMap_append]

/-! ### run.go: the pipeline -/

/-- The pipeline on valid flags, phase by phase. -/
theorem Run_eq (env : Env) (ctx : commands.AppContext) (f : commands.RunFlags) (w : World)
    (hmodel : f.model ≠ "") (heng : f.engineName = "sglang" ∨ f.engineName = "vllm") :
    commands.Run env ctx f w =
      match (doctorDone env w).1 with
      | some e => (.returned (some e), (doctorDone env w).2)
      | none =>
        match (installDone env f w).1 with
        | .panic msg => (.panicked msg, (installDone env f w).2)
        | .ok (some e) => (.returned (some e), (installDone env f w).2)
        | .ok none =>
          match (serveDone env ctx f w).1 with
          | some e => (.returned (some e), (serveDone env ctx f w).2)
          | none =>
            match (readinessDone env ctx f w).1 with
            | some e => (.returned (some e), (readinessDone env ctx f w).2)
            | none =>
              if f.noVerify then
                (pipelineEnd f, (readinessDone env ctx f w).2.emit (.report (baseURL f)))
              else if (verifyDone env ctx f w).1.Status ≠ "ok" then
                (.returned (some ("verification failed: " ++ (verifyDone env ctx f w).1.Message)),
                 (verifyDone env ctx f w).2)
              else (pipelineEnd f, (verifyDone env ctx f w).2.emit (.report (baseURL f))) := by
  have hne : f.engineName ≠ "" := by rcases heng with h | h <;> rw [h] <;> decide
  have hcfg : (if f.engineName = "sglang" then some config.EngineSGLang
      else if f.engineName = "vllm" then some config.EngineVLLM else none) = some f.engineName := by
    rcases heng with h | h <;> rw [h] <;> decide
  unfold commands.Run
  simp only [hne, hmodel, or_self, if_false, hcfg]
  simp only [doctorDone, installDone, serveDone, readinessDone, verifyDone, serveConfig, baseURL,
    pipelineEnd]
  generalize commands.runDoctorPhase _ _ = rd
  rcases rd with ⟨_ | e, dw⟩
  · simp only []
    generalize commands.runInstallPhase _ _ _ = ri
    rcases ri with ⟨⟨_ | e⟩ | m, iw⟩
    · simp only []
      generalize commands.runServePhase _ _ _ = rs
      rcases rs with ⟨_ | e, sw⟩
      · simp only []
        generalize commands.waitForReadiness _ _ _ _ = rr
        rcases rr with ⟨_ | e, rw⟩
        · simp only []
          cases f.noVerify with
          | true => cases f.daemon <;> simp
          | false =>
            generalize commands.runVerify _ _ _ _ _ _ = rv
            by_cases hs : rv.1.Status = "ok" <;> cases f.daemon <;> simp [hs]
        · rfl
      · rfl
    · rfl
    · rfl
  · rfl

theorem quiet_not_stops (e : Event) (h : e.quiet = true) : (!e.stops) = true := by
  cases e <;> simp_all [Event.quiet, Event.stops]

theorem onHost_quiet (e : Event) (h : e.onHost = true) : e.quiet = true := by
  cases e <;> simp_all [Event.quiet, Event.onHost]

theorem runServePhase_appends (env : Env) (cfg : config.ServeConfig) (w : World) :
    Appends (fun e => e.quiet && !e.foreground) w (commands.runServePhase env cfg w).2 :=
  runServe_daemon_appends env _ w rfl

theorem doctorDone_appends (env : Env) (w : World) :
    Appends Event.quiet (w.emit (.phase .doctor)) (doctorDone env w).2 :=
  (runDoctorPhase_appends env _).mono onHost_quiet

theorem installDone_appends (env : Env) (f : commands.RunFlags) (w : World) :
    Appends Event.quiet ((doctorDone env w).2.emit (.phase .install)) (installDone env f w).2 :=
  (runInstallPhase_appends env _ _).mono onHost_quiet

theorem serveDone_appends (env : Env) (ctx : commands.AppContext) (f : commands.RunFlags)
    (w : World) :
    Appends Event.quiet ((installDone env f w).2.emit (.phase .serve)) (serveDone env ctx f w).2 :=
  (runServePhase_appends env _ _).mono (fun e he => by
    simp only [Bool.and_eq_true] at he; exact he.1)

theorem readinessDone_appends (env : Env) (ctx : commands.AppContext) (f : commands.RunFlags)
    (w : World) :
    Appends Event.quiet ((serveDone env ctx f w).2.emit (.phase .readiness))
      (readinessDone env ctx f w).2 :=
  waitForReadiness_appends env _ _ _ (fun _ _ => rfl) (fun _ => rfl)

theorem verifyDone_appends (env : Env) (ctx : commands.AppContext) (f : commands.RunFlags)
    (w : World) :
    Appends Event.quiet ((readinessDone env ctx f w).2.emit (.phase .verify))
      (verifyDone env ctx f w).2 :=
  runVerify_appends env _ _ _ _ _ rfl rfl rfl

theorem phasesOf_doctorDone (env : Env) (w : World) :
    phasesOf (doctorDone env w).2.trace = phasesOf w.trace ++ [.doctor] := by
  rw [phasesOf_appends (doctorDone_appends env w), phasesOf_emit]

theorem phasesOf_installDone (env : Env) (f : commands.RunFlags) (w : World) :
    phasesOf (installDone env f w).2.trace = phasesOf w.trace ++ [.doctor, .install] := by
  rw [phasesOf_appends (installDone_appends env f w), phasesOf_emit, phasesOf_doctorDone]
  simp

theorem phasesOf_serveDone (env : Env) (ctx : commands.AppContext) (f : commands.RunFlags)
    (w : World) :
    phasesOf (serveDone env ctx f w).2.trace = phasesOf w.trace ++ [.doctor, .install, .serve] := by
  rw [phasesOf_appends (serveDone_appends env ctx f w), phasesOf_emit, phasesOf_installDone]
  simp

theorem phasesOf_readinessDone (env : Env) (ctx : commands.AppContext) (f : commands.RunFlags)
    (w : World) :
    phasesOf (readinessDone env ctx f w).2.trace =
      phasesOf w.trace ++ [.doctor, .install, .serve, .readiness] := by
  rw [phasesOf_appends (readinessDone_appends env ctx f w), phasesOf_emit, phasesOf_serveDone]
  simp

theorem phasesOf_verifyDone (env : Env) (ctx : commands.AppContext) (f : commands.RunFlags)
    (w : World) :
    phasesOf (verifyDone env ctx f w).2.trace =
      phasesOf w.trace ++ [.doctor, .install, .serve, .readiness, .verify] := by
  rw [phasesOf_appends (verifyDone_appends env ctx f w), phasesOf_emit, phasesOf_readinessDone]
  simp

theorem phasesOf_report (w : World) (endpoint : String) :
    phasesOf (w.emit (.report endpoint)).trace = phasesOf w.trace :=
  phasesOf_appends (Appends.emit w _ rfl)

theorem emit_phase_not_stops (w : World) (p : Phase) :
    Appends (fun e => !e.stops) w (w.emit (.phase p)) :=
  Appends.emit _ _ rfl

theorem emit_report_not_stops (w : World) (endpoint : String) :
    Appends (fun e => !e.stops) w (w.emit (.report endpoint)) :=
  Appends.emit _ _ rfl

theorem doctorDone_not_stops (env : Env) (w : World) :
    Appends (fun e => !e.stops) w (doctorDone env w).2 :=
  (emit_phase_not_stops w _).trans ((doctorDone_appends env w).mono quiet_not_stops)

theorem installDone_not_stops (env : Env) (f : commands.RunFlags) (w : World) :
    Appends (fun e => !e.stops) w (installDone env f w).2 :=
  ((doctorDone_not_stops env w).trans (emit_phase_not_stops _ _)).trans
    ((installDone_appends env f w).mono quiet_not_stops)

theorem serveDone_not_stops (env : Env) (ctx : commands.AppContext) (f : commands.RunFlags)
    (w : World) : Appends (fun e => !e.stops) w (serveDone env ctx f w).2 :=
  ((installDone_not_stops env f w).trans (emit_phase_not_stops _ _)).trans
    ((serveDone_appends env ctx f w).mono quiet_not_stops)

theorem readinessDone_not_stops (env : Env) (ctx : commands.AppContext) (f : commands.RunFlags)
    (w : World) : Appends (fun e => !e.stops) w (readinessDone env ctx f w).2 :=
  ((serveDone_not_stops env ctx f w).trans (emit_phase_not_stops _ _)).trans
    ((readinessDone_appends env ctx f w).mono quiet_not_stops)

theorem verifyDone_not_stops (env : Env) (ctx : commands.AppContext) (f : commands.RunFlags)
    (w : World) : Appends (fun e => !e.stops) w (verifyDone env ctx f w).2 :=
  ((readinessDone_not_stops env ctx f w).trans (emit_phase_not_stops _ _)).trans
    ((verifyDone_appends env ctx f w).mono quiet_not_stops)

/-- C9: on valid flags `Run` executes the phases in the order doctor, install, serve,
readiness, verify; it returns the error of the first phase that fails, in the world
that this phase left, having announced no later phase; when no phase fails it reports
success after the verify phase (or after the readiness phase with `--no-verify`). It
never sends a termination signal: a server started in the serve phase is left running. -/
theorem Run_stops_at_first_failure (env : Env) (ctx : commands.AppContext)
    (f : commands.RunFlags) (w : World)
    (hmodel : f.model ≠ "") (heng : f.engineName = "sglang" ∨ f.engineName = "vllm") :
    (∀ e, (doctorDone env w).1 = some e →
      commands.Run env ctx f w = (.returned (some e), (doctorDone env w).2) ∧
      phasesOf (commands.Run env ctx f w).2.trace = phasesOf w.trace ++ [.doctor]) ∧
    ((doctorDone env w).1 = none → ∀ e, (installDone env f w).1 = .ok (some e) →
      commands.Run env ctx f w = (.returned (some e), (installDone env f w).2) ∧
      phasesOf (commands.Run env ctx f w).2.trace = phasesOf w.trace ++ [.doctor, .install]) ∧
    ((doctorDone env w).1 = none → (installDone env f w).1 = .ok none →
      ∀ e, (serveDone env ctx f w).1 = some e →
      commands.Run env ctx f w = (.returned (some e), (serveDone env ctx f w).2) ∧
      phasesOf (commands.Run env ctx f w).2.trace =
        phasesOf w.trace ++ [.doctor, .install, .serve]) ∧
    ((doctorDone env w).1 = none → (installDone env f w).1 = .ok none →
      (serveDone env ctx f w).1 = none → ∀ e, (readinessDone env ctx f w).1 = some e →
      commands.Run env ctx f w = (.returned (some e), (readinessDone env ctx f w).2) ∧
      phasesOf (commands.Run env ctx f w).2.trace =
        phasesOf w.trace ++ [.doctor, .install, .serve, .readiness]) ∧
    ((doctorDone env w).1 = none → (installDone env f w).1 = .ok none →
      (serveDone env ctx f w).1 = none → (readinessDone env ctx f w).1 = none →
      f.noVerify = false → (verifyDone env ctx f w).1.Status ≠ "ok" →
      commands.Run env ctx f w =
        (.returned (some ("verification failed: " ++ (verifyDone env ctx f w).1.Message)),
         (verifyDone env ctx f w).2) ∧
      phasesOf (commands.Run env ctx f w).2.trace =
        phasesOf w.trace ++ [.doctor, .install, .serve, .readiness, .verify]) ∧
    ((doctorDone env w).1 = none → (installDone env f w).1 = .ok none →
      (serveDone env ctx f w).1 = none → (readinessDone env ctx f w).1 = none →
      f.noVerify = false → (verifyDone env ctx f w).1.Status = "ok" →
      commands.Run env ctx f w =
        (pipelineEnd f, (verifyDone env ctx f w).2.emit (.report (baseURL f))) ∧
      phasesOf (commands.Run env ctx f w).2.trace =
        phasesOf w.trace ++ [.doctor, .install, .serve, .readiness, .verify]) ∧
    ((doctorDone env w).1 = none → (installDone env f w).1 = .ok none →
      (serveDone env ctx f w).1 = none → (readinessDone env ctx f w).1 = none →
      f.noVerify = true →
      commands.Run env ctx f w =
        (pipelineEnd f, (readinessDone env ctx f w).2.emit (.report (baseURL f))) ∧
      phasesOf (commands.Run env ctx f w).2.trace =
        phasesOf w.trace ++ [.doctor, .install, .serve, .readiness]) ∧
    Appends (fun e => !e.stops) w (commands.Run env ctx f w).2 := by
  have key := Run_eq env ctx f w hmodel heng
  refine ⟨?_, ?_, ?_, ?_, ?_, ?_, ?_, ?_⟩
  · intro e hd
    rw [key, hd]
    exact ⟨rfl, phasesOf_doctorDone env w⟩
  · intro hd e hi
    rw [key, hd, hi]
    exact ⟨rfl, phasesOf_installDone env f w⟩
  · intro hd hi e hs
    rw [key, hd, hi, hs]
    exact ⟨rfl, phasesOf_serveDone env ctx f w⟩
  · intro hd hi hs e hr
    rw [key, hd, hi, hs, hr]
    exact ⟨rfl, phasesOf_readinessDone env ctx f w⟩
  · intro hd hi hs hr hn hv
    rw [key, hd, hi, hs, hr]
    simp only [hn, Bool.false_eq_true, if_false, hv, ne_eq, not_false_eq_true, if_true]
    exact ⟨trivial, phasesOf_verifyDone env ctx f w⟩
  · intro hd hi hs hr hn hv
    rw [key, hd, hi, hs, hr]
    simp only [hn, Bool.false_eq_true, if_false, hv, ne_eq, not_true_eq_false]
    refine ⟨trivial, ?_⟩
    rw [phasesOf_report]
    exact phasesOf_verifyDone env ctx f w
  · intro hd hi hs hr hn
    rw [key, hd, hi, hs, hr]
    simp only [hn, if_true]
    refine ⟨trivial, ?_⟩
    rw [phasesOf_report]
    exact phasesOf_readinessDone env ctx f w
  · rw [key]
    split
    · exact doctorDone_not_stops env w
    · split
      · exact installDone_not_stops env f w
      · exact installDone_not_stops env f w
      · split
        · exact serveDone_not_stops env ctx f w
        · split
          · exact readinessDone_not_stops env ctx f w
          · split
            · exact (readinessDone_not_stops env ctx f w).trans (emit_report_not_stops _ _)
            · split
              · exact verifyDone_not_stops env ctx f w
              · exact (verifyDone_not_stops env ctx f w).trans (emit_report_not_stops _ _)

/-- Witness of C9: without a GPU the pipeline returns the error of the doctor phase
and announces no other phase; against a server that never gets ready it returns the
timeout error of the readiness phase and never announces the verify phase. -/
theorem Run_stops_at_first_failure_witness :
    (commands.Run noGPU ctx0 flags0 world0 =
        (.returned (some "critical doctor checks failed"), (doctorDone noGPU world0).2) ∧
      phasesOf (commands.Run noGPU ctx0 flags0 world0).2.trace = phasesOf world0.trace ++ [.doctor]) ∧
    (commands.Run slowEnv ctx0 flags0 world0 =
        (.returned (some "timeout waiting for server readiness"),
         (readinessDone slowEnv ctx0 flags0 world0).2) ∧
      phasesOf (commands.Run slowEnv ctx0 flags0 world0).2.trace =
        phasesOf world0.trace ++ [.doctor, .install, .serve, .readiness]) :=
  ⟨(Run_stops_at_first_failure noGPU ctx0 flags0 world0 (by decide) (by decide)).1
     "critical doctor checks failed" (by decide),
   (Run_stops_at_first_failure slowEnv ctx0 flags0 world0 (by decide) (by decide)).2.2.2.1
     (by decide) (by decide) (by decide) "timeout waiting for server readiness" (by decide)⟩

/-- C10: `runServePhase` runs `runServe` on the configuration with the daemon flag
set and every other field unchanged, whatever the daemon flag was; so the pipeline
performs no event of the foreground path, and once the engine is found (and the log
file, if any, is open) what it runs is `runDaemon`. -/
theorem runServePhase_forces_daemon (env : Env) (cfg : config.ServeConfig) (w : World) :
    commands.runServePhase env cfg w = commands.runServe env (withDaemon cfg) w ∧
    (withDaemon cfg).Daemon = true ∧
    Appends (fun e => !e.foreground) w (commands.runServePhase env cfg w).2 ∧
    (∀ eng, engine.Get cfg.Engine = some eng →
      (cfg.LogFile = "" →
        commands.runServePhase env cfg w =
          commands.runDaemon env
            (exec.CommandContext (eng.ServeCommand (withDaemon cfg)).1
              (eng.ServeCommand (withDaemon cfg)).2)
            none (withDaemon cfg) w) ∧
      (cfg.LogFile ≠ "" → env.openFile cfg.LogFile = none →
        commands.runServePhase env cfg w =
          ((commands.runDaemon env
              (exec.CommandContext (eng.ServeCommand (withDaemon cfg)).1
                (eng.ServeCommand (withDaemon cfg)).2)
              (some cfg.LogFile) (withDaemon cfg) (w.emit (.openLog cfg.LogFile))).1,
           (commands.runDaemon env
              (exec.CommandContext (eng.ServeCommand (withDaemon cfg)).1
                (eng.ServeCommand (withDaemon cfg)).2)
              (some cfg.LogFile) (withDaemon cfg) (w.emit (.openLog cfg.LogFile))).2.emit
             (.closeLog cfg.LogFile)))) := by
  refine ⟨rfl, rfl, ?_, ?_⟩
  · exact (runServePhase_appends env cfg w).mono (fun e he => by
      simp only [Bool.and_eq_true] at he; exact he.2)
  · intro eng heng
    constructor
    · intro hl
      show commands.runServe env (withDaemon cfg) w = _
      simp [commands.runServe, heng, hl, withDaemon]
    · intro hl ho
      show commands.runServe env (withDaemon cfg) w = _
      simp [commands.runServe, heng, hl, ho, withDaemon]

/-- Witness of C10: a configuration whose daemon flag is off and that names no log
file; the serve phase is the daemon path on the configuration with the flag set. -/
theorem runServePhase_forces_daemon_witness :
    cfgExtra.Daemon = false ∧
    commands.runServePhase stubC cfgExtra world0 =
      commands.runDaemon stubC
        (exec.CommandContext (engine.Engine.ServeCommand .SGLangEngine (withDaemon cfgExtra)).1
          (engine.Engine.ServeCommand .SGLangEngine (withDaemon cfgExtra)).2)
        none (withDaemon cfgExtra) world0 :=
  ⟨rfl,
   ((runServePhase_forces_daemon stubC cfgExtra world0).2.2.2 .SGLangEngine (by decide)).1
     (by decide)⟩

/-! ### package execx and the engine probes -/

theorem execx_Run_snd (env : Env) (name : String) (args : List String) (w : World) :
    (execx.Run env name args w).2 = w.emit (.exec name args) := rfl

/-- C16: the exit code that `execx.Run` reports is a function of the value of
`cmd.Run()`: 0 for nil, the code of the exit-status error for an `*exec.ExitError`,
and -1 for every other error; so for a child that exits on its own with a status in
0..255 the reported code is never the sentinel -1, which is what a command that could
not be started (or a child ended by a signal) gives. -/
theorem Run_ExitCode (env : Env) (name : String) (args : List String) (w : World) :
    ((env.cmdRun w.trace name args).err = none →
      (execx.Run env name args w).1.ExitCode = 0) ∧
    (∀ c m, (env.cmdRun w.trace name args).err = some (.exit c m) →
      (execx.Run env name args w).1.ExitCode = c) ∧
    (∀ m, (env.cmdRun w.trace name args).err = some (.other m) →
      (execx.Run env name args w).1.ExitCode = -1) ∧
    (∀ c m, (env.cmdRun w.trace name args).err = some (.exit c m) → 0 ≤ c → c ≤ 255 →
      (execx.Run env name args w).1.ExitCode ≠ -1) ∧
    (execx.Run env name args w).1.Err = (env.cmdRun w.trace name args).err := by
  refine ⟨?_, ?_, ?_, ?_, rfl⟩
  · intro h; simp [execx.Run, execx.exitCodeOf, h]
  · intro c m h; simp [execx.Run, execx.exitCodeOf, h]
  · intro m h; simp [execx.Run, execx.exitCodeOf, h]
  · intro c m h h0 _; simp [execx.Run, execx.exitCodeOf, h]; omega

/-- Witness of C16: a command that cannot be started reports -1, a child that exits
with status 1 reports 1. -/
theorem Run_ExitCode_witness :
    (execx.Run envNoLaunch "uv" ["--version"] world0).1.ExitCode = -1 ∧
    (execx.Run envBarePython "uv" ["--version"] world0).1.ExitCode ≠ -1 ∧
    (execx.Run envBarePython "python" ["--version"] world0).1.ExitCode = 0 :=
  ⟨(Run_ExitCode envNoLaunch "uv" ["--version"] world0).2.2.1 _ rfl,
   (Run_ExitCode envBarePython "uv" ["--version"] world0).2.2.2.1 1 _ rfl (by decide) (by decide),
   (Run_ExitCode envBarePython "python" ["--version"] world0).1 rfl⟩

/-- C14: `CheckInstalled` runs its probes in the fixed order (the import through
`uv run python`, the import through bare `python`, and for vLLM `vllm --version`),
stops at the first probe with exit code 0 and returns true with the trimmed stdout of
that probe; it returns false and the empty version exactly when every probe has a
non-zero exit code; its error is always nil, and the trace shows that no probe is run
after one that succeeded. -/
theorem CheckInstalled_first_success (env : Env) (w : World) :
    let s1 := execx.Run env "uv"
      ["run", "python", "-c", "import sglang; print(sglang.__version__)"] w
    let s2 := execx.Run env "python" ["-c", "import sglang; print(sglang.__version__)"] s1.2
    let v1 := execx.Run env "uv"
      ["run", "python", "-c", "import vllm; print(vllm.__version__)"] w
    let v2 := execx.Run env "python" ["-c", "import vllm; print(vllm.__version__)"] v1.2
    let v3 := execx.Run env "vllm" ["--version"] v2.2
    (s1.1.ExitCode = 0 →
      engine.SGLangEngine.CheckInstalled env w = ((true, s1.1.Stdout, none), s1.2)) ∧
    (s1.1.ExitCode ≠ 0 → s2.1.ExitCode = 0 →
      engine.SGLangEngine.CheckInstalled env w = ((true, s2.1.Stdout, none), s2.2)) ∧
    (s1.1.ExitCode ≠ 0 → s2.1.ExitCode ≠ 0 →
      engine.SGLangEngine.CheckInstalled env w = ((false, "", none), s2.2)) ∧
    (v1.1.ExitCode = 0 →
      engine.VLLMEngine.CheckInstalled env w = ((true, v1.1.Stdout, none), v1.2)) ∧
    (v1.1.ExitCode ≠ 0 → v2.1.ExitCode = 0 →
      engine.VLLMEngine.CheckInstalled env w = ((true, v2.1.Stdout, none), v2.2)) ∧
    (v1.1.ExitCode ≠ 0 → v2.1.ExitCode ≠ 0 → v3.1.ExitCode = 0 →
      engine.VLLMEngine.CheckInstalled env w = ((true, v3.1.Stdout, none), v3.2)) ∧
    (v1.1.ExitCode ≠ 0 → v2.1.ExitCode ≠ 0 → v3.1.ExitCode ≠ 0 →
      engine.VLLMEngine.CheckInstalled env w = ((false, "", none), v3.2)) ∧
    ((engine.SGLangEngine.CheckInstalled env w).1.1 = false ↔
      (s1.1.ExitCode ≠ 0 ∧ s2.1.ExitCode ≠ 0)) ∧
    ((engine.VLLMEngine.CheckInstalled env w).1.1 = false ↔
      (v1.1.ExitCode ≠ 0 ∧ v2.1.ExitCode ≠ 0 ∧ v3.1.ExitCode ≠ 0)) ∧
    (engine.SGLangEngine.CheckInstalled env w).1.2.2 = none ∧
    (engine.VLLMEngine.CheckInstalled env w).1.2.2 = none ∧
    s1.1.Stdout = strings.TrimSpace (env.cmdRun w.trace "uv"
      ["run", "python", "-c", "import sglang; print(sglang.__version__)"]).stdout ∧
    s1.2.trace = w.trace ++
      [.exec "uv" ["run", "python", "-c", "import sglang; print(sglang.__version__)"]] ∧
    v2.2.trace = w.trace ++
      [.exec "uv" ["run", "python", "-c", "import vllm; print(vllm.__version__)"],
       .exec "python" ["-c", "import vllm; print(vllm.__version__)"]] := by
  intro s1 s2 v1 v2 v3
  have hS : engine.SGLangEngine.CheckInstalled env w =
      if s1.1.ExitCode = 0 then ((true, s1.1.Stdout, none), s1.2)
      else if s2.1.ExitCode = 0 then ((true, s2.1.Stdout, none), s2.2)
      else ((false, "", none), s2.2) := rfl
  have hV : engine.VLLMEngine.CheckInstalled env w =
      if v1.1.ExitCode = 0 then ((true, v1.1.Stdout, none), v1.2)
      else if v2.1.ExitCode = 0 then ((true, v2.1.Stdout, none), v2.2)
      else if v3.1.ExitCode = 0 then ((true, v3.1.Stdout, none), v3.2)
      else ((false, "", none), v3.2) := rfl
  refine ⟨?_, ?_, ?_, ?_, ?_, ?_, ?_, ?_, ?_, ?_, ?_, rfl, rfl, ?_⟩
  · intro h; rw [hS, if_pos h]
  · intro h1 h2; rw [hS, if_neg h1, if_pos h2]
  · intro h1 h2; rw [hS, if_neg h1, if_neg h2]
  · intro h; rw [hV, if_pos h]
  · intro h1 h2; rw [hV, if_neg h1, if_pos h2]
  · intro h1 h2 h3; rw [hV, if_neg h1, if_neg h2, if_pos h3]
  · intro h1 h2 h3; rw [hV, if_neg h1, if_neg h2, if_neg h3]
  · rw [hS]; split_ifs <;> simp_all
  · rw [hV]; split_ifs <;> simp_all
  · rw [hS]; split_ifs <;> rfl
  · rw [hV]; split_ifs <;> rfl
  · simp [v2, v1, execx.Run, World.emit]

/-- Witness of C14: `uv` fails and the bare `python` succeeds; the second probe wins
for both engines and `vllm --version` is never run. -/
theorem CheckInstalled_first_success_witness :
    engine.SGLangEngine.CheckInstalled envBarePython world0 =
      ((true, "0.4.6", none),
       { world0 with trace :=
          [.exec "uv" ["run", "python", "-c", "import sglang; print(sglang.__version__)"],
           .exec "python" ["-c", "import sglang; print(sglang.__version__)"]] }) ∧
    engine.VLLMEngine.CheckInstalled envBarePython world0 =
      ((true, "0.4.6", none),
       { world0 with trace :=
          [.exec "uv" ["run", "python", "-c", "import vllm; print(vllm.__version__)"],
           .exec "python" ["-c", "import vllm; print(vllm.__version__)"]] }) :=
  ⟨(CheckInstalled_first_success envBarePython world0).2.1 (by decide) (by decide),
   (CheckInstalled_first_success envBarePython world0).2.2.2.2.1 (by decide) (by decide)⟩

/-- C15: `Install` of either backend runs `uv pip install -U` once, with the
constraint "sglang>=0.4" or "vllm>=0.6"; it returns nil exactly when the exit code of
that run is 0, and otherwise an error whose message ends with the captured (trimmed)
stderr of the run. -/
theorem engine_Install_result (env : Env) (w : World) :
    engine.SGLangEngine.Install env w =
      (if (execx.Run env "uv" ["pip", "install", "-U", "sglang>=0.4"] w).1.ExitCode = 0 then none
       else some ("failed to install sglang: " ++
         (execx.Run env "uv" ["pip", "install", "-U", "sglang>=0.4"] w).1.Stderr),
       w.emit (.exec "uv" ["pip", "install", "-U", "sglang>=0.4"])) ∧
    engine.VLLMEngine.Install env w =
      (if (execx.Run env "uv" ["pip", "install", "-U", "vllm>=0.6"] w).1.ExitCode = 0 then none
       else some ("failed to install vllm: " ++
         (execx.Run env "uv" ["pip", "install", "-U", "vllm>=0.6"] w).1.Stderr),
       w.emit (.exec "uv" ["pip", "install", "-U", "vllm>=0.6"])) ∧
    ((engine.SGLangEngine.Install env w).1 = none ↔
      (execx.Run env "uv" ["pip", "install", "-U", "sglang>=0.4"] w).1.ExitCode = 0) ∧
    ((engine.VLLMEngine.Install env w).1 = none ↔
      (execx.Run env "uv" ["pip", "install", "-U", "vllm>=0.6"] w).1.ExitCode = 0) ∧
    (execx.Run env "uv" ["pip", "install", "-U", "sglang>=0.4"] w).1.Stderr =
      strings.TrimSpace (env.cmdRun w.trace "uv" ["pip", "install", "-U", "sglang>=0.4"]).stderr ∧
    (execx.Run env "uv" ["pip", "install", "-U", "vllm>=0.6"] w).1.Stderr =
      strings.TrimSpace (env.cmdRun w.trace "uv" ["pip", "install", "-U", "vllm>=0.6"]).stderr := by
  have hS : engine.SGLangEngine.Install env w =
      (if (execx.Run env "uv" ["pip", "install", "-U", "sglang>=0.4"] w).1.ExitCode = 0 then none
       else some ("failed to install sglang: " ++
         (execx.Run env "uv" ["pip", "install", "-U", "sglang>=0.4"] w).1.Stderr),
       w.emit (.exec "uv" ["pip", "install", "-U", "sglang>=0.4"])) := by
    simp only [engine.SGLangEngine.Install, execx_Run_snd]
    split_ifs <;> simp_all
  have hV : engine.VLLMEngine.Install env w =
      (if (execx.Run env "uv" ["pip", "install", "-U", "vllm>=0.6"] w).1.ExitCode = 0 then none
       else some ("failed to install vllm: " ++
         (execx.Run env "uv" ["pip", "install", "-U", "vllm>=0.6"] w).1.Stderr),
       w.emit (.exec "uv" ["pip", "install", "-U", "vllm>=0.6"])) := by
    simp only [engine.VLLMEngine.Install, execx_Run_snd]
    split_ifs <;> simp_all
  refine ⟨hS, hV, ?_, ?_, rfl, rfl⟩
  · rw [hS]; split_ifs <;> simp_all
  · rw [hV]; split_ifs <;> simp_all

/-! ### install.go: the state file -/

/-- C20: `loadState` returns the empty state and a nil error when the state file is
missing and when its bytes do not parse; it returns the decoded state and a nil error
when they parse; whatever the bytes of a file that could be read, the error is nil. -/
theorem loadState_best_effort (env : Env) :
    (env.readState = .notExist → commands.loadState env = (some {}, none)) ∧
    (∀ bytes, env.readState = .data bytes → env.unmarshalState bytes = none →
      commands.loadState env = (some {}, none)) ∧
    (∀ bytes state, env.readState = .data bytes → env.unmarshalState bytes = some state →
      commands.loadState env = (some state, none)) ∧
    (∀ bytes, env.readState = .data bytes → (commands.loadState env).2 = none) := by
  refine ⟨?_, ?_, ?_, ?_⟩
  · intro h; simp [commands.loadState, h]
  · intro bytes h1 h2; simp [commands.loadState, h1, h2]
  · intro bytes state h1 h2; simp [commands.loadState, h1, h2]
  · intro bytes h1
    cases h2 : env.unmarshalState bytes <;> simp [commands.loadState, h1, h2]

/-- Witness of C20: a missing state file and a corrupt one both give the empty state
and no error. -/
theorem loadState_best_effort_witness :
    commands.loadState envDown = (some {}, none) ∧
    commands.loadState envCorrupt = (some {}, none) :=
  ⟨(loadState_best_effort envDown).1 rfl,
   (loadState_best_effort envCorrupt).2.1 "not json" rfl rfl⟩

/-! ### serve.go: the supervisor -/

/-- C12: once the child is started, `runForeground` returns only after the value of
`cmd.Wait()` has been received: when the signal comes first the trace continues with
the SIGTERM sent to the child and then the reaping, and the result is nil; when the
exit comes first the child is reaped at once; in both orders the reaping is the last
event before the return. When the start fails there is no child to reap. -/
theorem runForeground_reaps_child (env : Env) (cmd : Cmd) (logFile : Option String)
    (cfg : config.ServeConfig) (w : World) :
    (env.start cmd.Path cmd.Args = none → env.signalFirst = true →
      commands.runForeground env cmd logFile cfg w =
        (none, { w with trace := w.trace ++
          [.notify,
           .start { cmd with Stdout := foregroundSinks logFile,
                             Stderr := foregroundSinks logFile },
           .sigterm, .reaped] })) ∧
    (env.start cmd.Path cmd.Args = none → env.signalFirst = false →
      (commands.runForeground env cmd logFile cfg w).2 =
        { w with trace := w.trace ++
          [.notify,
           .start { cmd with Stdout := foregroundSinks logFile,
                             Stderr := foregroundSinks logFile },
           .reaped] }) ∧
    (env.start cmd.Path cmd.Args = none →
      (commands.runForeground env cmd logFile cfg w).2.trace.getLast? = some .reaped) ∧
    (∀ err, env.start cmd.Path cmd.Args = some err →
      commands.runForeground env cmd logFile cfg w =
        (some ("failed to start server: " ++ err),
         { w with trace := w.trace ++
          [.notify,
           .start { cmd with Stdout := foregroundSinks logFile,
                             Stderr := foregroundSinks logFile }] })) := by
  refine ⟨?_, ?_, ?_, ?_⟩
  · intro h1 h2
    cases logFile <;> simp [commands.runForeground, h1, h2, World.emit, foregroundSinks]
  · intro h1 h2
    cases logFile <;> cases hw : env.wait <;>
      simp [commands.runForeground, h1, h2, hw, World.emit, foregroundSinks]
  · intro h1
    cases logFile <;> cases h2 : env.signalFirst <;> cases hw : env.wait <;>
      simp [commands.runForeground, h1, h2, hw, World.emit, List.getLast?_append]
  · intro err h1
    cases logFile <;> simp [commands.runForeground, h1, World.emit, foregroundSinks]

/-- Witness of C12: a signal that comes first, and a child that fails by itself. -/
theorem runForeground_reaps_child_witness :
    commands.runForeground envSignal (exec.CommandContext "uv" ["run"]) none cfgExtra world0 =
      (none, { world0 with trace :=
        [.notify,
         .start { Path := "uv", Args := ["run"], Stdout := [.display], Stderr := [.display],
                  Setpgid := false },
         .sigterm, .reaped] }) ∧
    (commands.runForeground envChildFails (exec.CommandContext "uv" ["run"])
        (some "./hermes.log") cfgExtra world0).2.trace.getLast? = some .reaped :=
  ⟨(runForeground_reaps_child envSignal (exec.CommandContext "uv" ["run"]) none cfgExtra
      world0).1 rfl rfl,
   (runForeground_reaps_child envChildFails (exec.CommandContext "uv" ["run"])
      (some "./hermes.log") cfgExtra world0).2.2.1 rfl⟩

theorem startedOf_append (t1 t2 : List Event) :
    startedOf (t1 ++ t2) = startedOf t1 ++ startedOf t2 := by
  simp [startedOf, List.filterMap_append]

/-- C13, as amended: `runServe` starts one command, whose stdout and stderr are the same
list of sinks; in foreground mode the list is the display and, when a log file is
configured, the log file; in daemon mode it is the log file alone when one is
configured and no sink at all otherwise. -/
theorem runServe_child_sinks (env : Env) (cfg : config.ServeConfig) (w : World)
    (eng : engine.Engine) (heng : engine.Get cfg.Engine = some eng)
    (hlog : cfg.LogFile ≠ "" → env.openFile cfg.LogFile = none) :
    startedOf (commands.runServe env cfg w).2.trace = startedOf w.trace ++
      [{ Path := (eng.ServeCommand cfg).1, Args := (eng.ServeCommand cfg).2,
         Stdout := childSinks cfg, Stderr := childSinks cfg, Setpgid := cfg.Daemon }] := by
  by_cases hl : cfg.LogFile = ""
  · cases hd : cfg.Daemon <;> cases hs : env.start (eng.ServeCommand cfg).1 (eng.ServeCommand cfg).2 <;>
      cases hf : env.signalFirst <;> cases hw : env.wait <;>
      simp [commands.runServe, commands.runDaemon, commands.runForeground, exec.CommandContext,
        heng, hl, hd, hs, hf, hw, World.emit, startedOf_append, startedOf, childSinks]
  · have ho := hlog hl
    cases hd : cfg.Daemon <;> cases hs : env.start (eng.ServeCommand cfg).1 (eng.ServeCommand cfg).2 <;>
      cases hf : env.signalFirst <;> cases hw : env.wait <;>
      simp [commands.runServe, commands.runDaemon, commands.runForeground, exec.CommandContext,
        heng, hl, ho, hd, hs, hf, hw, World.emit, startedOf_append, startedOf, childSinks]

/-- Witness of C13 as amended: a daemon with a log file writes to the log file only. -/
theorem runServe_child_sinks_witness :
    startedOf (commands.runServe envDown cfgDaemonLog world0).2.trace = startedOf world0.trace ++
      [{ Path := (engine.Engine.ServeCommand .SGLangEngine cfgDaemonLog).1,
         Args := (engine.Engine.ServeCommand .SGLangEngine cfgDaemonLog).2,
         Stdout := childSinks cfgDaemonLog, Stderr := childSinks cfgDaemonLog,
         Setpgid := cfgDaemonLog.Daemon }] ∧
    childSinks cfgDaemonLog = [.logFile "./hermes.log"] :=
  ⟨runServe_child_sinks envDown cfgDaemonLog world0 .SGLangEngine (by decide) (fun _ => rfl),
   by decide⟩

/-- Counterexample to C13: in daemon mode with a log file configured the child's
stdout and stderr go to the log file and not to the display, while the same
configuration in foreground mode writes to both: the sinks depend on the mode. -/
theorem runDaemon_output_not_on_display :
    (startedOf (commands.runServe envDown cfgDaemonLog world0).2.trace).map (fun c => c.Stdout)
      = [[.logFile "./hermes.log"]] ∧
    (startedOf (commands.runServe envDown cfgDaemonLog world0).2.trace).map (fun c => c.Stderr)
      = [[.logFile "./hermes.log"]] ∧
    (startedOf (commands.runServe envDown { cfgDaemonLog with Daemon := false }
        world0).2.trace).map (fun c => c.Stdout)
      = [[.display, .logFile "./hermes.log"]] ∧
    ¬ (Sink.display ∈ [Sink.logFile "./hermes.log"]) := by
  refine ⟨by decide, by decide, by decide, by decide⟩

/-! ### The flags of `serve` and `run` -/

/-- On valid flags `Serve` is `runServe` on the configuration built from the flags. -/
theorem Serve_eq (env : Env) (ctx : commands.AppContext) (f : commands.ServeFlags) (w : World)
    (hmodel : f.model ≠ "") (heng : f.engineName = "sglang" ∨ f.engineName = "vllm") :
    commands.Serve env ctx f w = commands.runServe env (serveConfigOf ctx f) w := by
  have hcfg : (if f.engineName = "sglang" then some config.EngineSGLang
      else if f.engineName = "vllm" then some config.EngineVLLM else none) = some f.engineName := by
    rcases heng with h | h <;> rw [h] <;> decide
  unfold commands.Serve
  simp only [hmodel, if_false, hcfg]
  rfl

/-- C19, as amended: the configuration that `serve` and `run` hand to the supervisor
carries the values of the flags `--tp` and `--port` as they are, whatever integers they
are; no range is checked. -/
theorem ServeConfig_carries_flags (env : Env) (ctx : commands.AppContext) (w : World) :
    (∀ f : commands.ServeFlags, f.model ≠ "" → (f.engineName = "sglang" ∨ f.engineName = "vllm") →
      commands.Serve env ctx f w = commands.runServe env (serveConfigOf ctx f) w ∧
      (serveConfigOf ctx f).TP = f.tp ∧ (serveConfigOf ctx f).Port = f.port) ∧
    (∀ f : commands.RunFlags,
      serveDone env ctx f w = commands.runServe env (withDaemon (serveConfig ctx f))
        ((installDone env f w).2.emit (.phase .serve)) ∧
      (withDaemon (serveConfig ctx f)).TP = f.tp ∧
      (withDaemon (serveConfig ctx f)).Port = f.port) :=
  ⟨fun f hm he => ⟨Serve_eq env ctx f w hm he, rfl, rfl⟩, fun _ => ⟨rfl, rfl, rfl⟩⟩

/-- Witness of C19 as amended: `--tp 0 --port 70000` reach the supervisor unchanged. -/
theorem ServeConfig_carries_flags_witness :
    commands.Serve envDown ctx0 flagsZero world0 =
      commands.runServe envDown (serveConfigOf ctx0 flagsZero) world0 ∧
    (serveConfigOf ctx0 flagsZero).TP = 0 ∧ (serveConfigOf ctx0 flagsZero).Port = 70000 :=
  (ServeConfig_carries_flags envDown ctx0 world0).1 flagsZero (by decide) (by decide)

/-- Counterexample to C19: `hermes serve --model demo --tp 0 --port 70000 --daemon` is
accepted and starts the engine with a parallelism degree of 0 on port 70000. -/
theorem Serve_accepts_tp_zero :
    (commands.Serve envDown ctx0 flagsZero world0).1 = none ∧
    (startedOf (commands.Serve envDown ctx0 flagsZero world0).2.trace).map (fun c => c.Args) =
      [["run", "python", "-m", "sglang.launch_server", "--model-path", "demo",
        "--trust-remote-code", "--tp-size", "0", "--host", "0.0.0.0", "--port", "70000"]] ∧
    ¬ (1 ≤ (serveConfigOf ctx0 flagsZero).TP ∧ 1 ≤ (serveConfigOf ctx0 flagsZero).Port ∧
      (serveConfigOf ctx0 flagsZero).Port ≤ 65535) := by
  refine ⟨by decide, by decide, by decide⟩

/-- C18: against a server that answers no request, `hermes verify --json` gets the
verdict "fail" from `runVerify` and yet returns nil, so the program exits with status
0; without `--json` the same verdict is returned as an error and the exit status is 1. -/
theorem Verify_json_returns_nil_on_fail :
    (commands.runVerify envDown "http://127.0.0.1:30000" (wrapInt64 (60 * Second)) false true
      world0).1.Status = "fail" ∧
    (commands.Verify envDown { jsonOutput := true } world0).1 = none ∧
    main.exitStatus (commands.Verify envDown { jsonOutput := true } world0).1 = 0 ∧
    (commands.Verify envDown {} world0).1 = some "verification failed: Server not responding" ∧
    main.exitStatus (commands.Verify envDown {} world0).1 = 1 := by
  refine ⟨by decide, by decide, by decide, by decide, by decide⟩

theorem mem_of_appends {P : Event → Bool} {w1 w2 : World} (h : Appends P w1 w2) (e : Event)
    (he : e ∈ w1.trace) : e ∈ w2.trace := by
  obtain ⟨evs, h1, -⟩ := h
  rw [h1]
  exact List.mem_append_left _ he

/-- When the nvidia-smi check is ok, the program `nvidia-smi` was run. -/
theorem checkNvidiaSMI_ok_ran (env : Env) (j : Bool) (w : World)
    (h : (commands.checkNvidiaSMI env j w).1.Status = commands.StatusOK) :
    (commands.checkNvidiaSMI env j w).2 = w.emit (.exec "nvidia-smi"
      ["--query-gpu=name,memory.total,driver_version", "--format=csv,noheader"]) := by
  unfold commands.checkNvidiaSMI at h ⊢
  simp only [execx.Run] at h ⊢
  split_ifs at h ⊢ <;>
    first
    | rfl
    | exact absurd h (show ¬ (commands.StatusFail = commands.StatusOK) by decide)

/-- When the doctor phase passes, its trace holds the run of `nvidia-smi`. -/
theorem doctorDone_ran_nvidia_smi (env : Env) (w : World) (h : (doctorDone env w).1 = none) :
    Event.exec "nvidia-smi"
      ["--query-gpu=name,memory.total,driver_version", "--format=csv,noheader"]
      ∈ (doctorDone env w).2.trace := by
  unfold doctorDone at h ⊢
  rw [runDoctorPhase_eq] at h ⊢
  have hok : (commands.checkNvidiaSMI env true (w.emit (.phase .doctor))).1.Status
      = commands.StatusOK := by
    by_contra hne
    simp [hne] at h
  have hmem : Event.exec "nvidia-smi"
      ["--query-gpu=name,memory.total,driver_version", "--format=csv,noheader"]
      ∈ (commands.checkNvidiaSMI env true (w.emit (.phase .doctor))).2.trace := by
    rw [checkNvidiaSMI_ok_ran env true _ hok]
    simp [World.emit]
  exact mem_of_appends ((checkUV_appends env true _).trans (checkPython_appends env true _)) _ hmem

theorem Install_invalid_mode (env : Env) (f : commands.InstallFlags) (w : World)
    (h1 : f.installMode ≠ "sglang") (h2 : f.installMode ≠ "vllm")
    (h3 : f.installMode ≠ "both") (h4 : f.installMode ≠ "none") :
    commands.Install env f w = (.ok (some ("invalid install mode: " ++ f.installMode)), w) := by
  unfold commands.Install
  simp [config.InstallSGLang, config.InstallVLLM, config.InstallBoth, config.InstallNone,
    h1, h2, h3, h4]

/-- C17, as amended: a missing model, for `run` a missing engine, and an engine name
other than "sglang" and "vllm" are rejected by `serve` and `run` with the world
untouched, so before any external program is started; `install` rejects an unknown
install mode in the same way. An unknown install mode of `run` is rejected only in the
install phase: when the doctor phase passes, which includes a run of `nvidia-smi`, `run`
returns the error of `Install` right after announcing the install phase; when the
doctor phase fails, `run` returns the error of the doctor phase instead. -/
theorem invalid_flags_rejected (env : Env) (ctx : commands.AppContext) (w : World) :
    (∀ f : commands.ServeFlags, f.model = "" →
      commands.Serve env ctx f w = (some "--model is required", w)) ∧
    (∀ f : commands.ServeFlags, f.model ≠ "" → f.engineName ≠ "sglang" →
      f.engineName ≠ "vllm" →
      commands.Serve env ctx f w =
        (some ("invalid engine: " ++ f.engineName ++ " (use sglang or vllm)"), w)) ∧
    (∀ f : commands.RunFlags, f.engineName = "" ∨ f.model = "" →
      commands.Run env ctx f w = (.returned (some "--engine and --model are required"), w)) ∧
    (∀ f : commands.RunFlags, f.engineName ≠ "" → f.model ≠ "" → f.engineName ≠ "sglang" →
      f.engineName ≠ "vllm" →
      commands.Run env ctx f w =
        (.returned (some ("invalid engine: " ++ f.engineName ++ " (use sglang or vllm)")), w)) ∧
    (∀ f : commands.InstallFlags, f.installMode ≠ "sglang" → f.installMode ≠ "vllm" →
      f.installMode ≠ "both" → f.installMode ≠ "none" →
      commands.Install env f w = (.ok (some ("invalid install mode: " ++ f.installMode)), w)) ∧
    (∀ f : commands.RunFlags, f.model ≠ "" → (f.engineName = "sglang" ∨ f.engineName = "vllm") →
      f.installMode ≠ "sglang" → f.installMode ≠ "vllm" →
      f.installMode ≠ "both" → f.installMode ≠ "none" →
      ((doctorDone env w).1 = none →
        commands.Run env ctx f w =
          (.returned (some ("invalid install mode: " ++ f.installMode)),
           (doctorDone env w).2.emit (.phase .install)) ∧
        Event.exec "nvidia-smi"
          ["--query-gpu=name,memory.total,driver_version", "--format=csv,noheader"]
          ∈ (commands.Run env ctx f w).2.trace) ∧
      (∀ e, (doctorDone env w).1 = some e →
        commands.Run env ctx f w = (.returned (some e), (doctorDone env w).2))) := by
  refine ⟨?_, ?_, ?_, ?_, ?_, ?_⟩
  · intro f h
    simp [commands.Serve, h]
  · intro f h1 h2 h3
    simp [commands.Serve, h1, h2, h3]
  · intro f h
    simp [commands.Run, h]
  · intro f h1 h2 h3 h4
    simp [commands.Run, h1, h2, h3, h4]
  · intro f h1 h2 h3 h4
    exact Install_invalid_mode env f w h1 h2 h3 h4
  · intro f hmodel heng h1 h2 h3 h4
    have key := Run_eq env ctx f w hmodel heng
    have hi : installDone env f w =
        (.ok (some ("invalid install mode: " ++ f.installMode)),
         (doctorDone env w).2.emit (.phase .install)) := by
      unfold installDone commands.runInstallPhase
      rw [if_neg (by simpa [config.InstallNone] using h4)]
      exact Install_invalid_mode env _ _ h1 h2 h3 h4
    constructor
    · intro hd
      have hrun : commands.Run env ctx f w =
          (.returned (some ("invalid install mode: " ++ f.installMode)),
           (doctorDone env w).2.emit (.phase .install)) := by
        rw [key, hd, hi]
      refine ⟨hrun, ?_⟩
      rw [hrun]
      exact mem_of_appends (Appends.emit (P := fun _ => true) _ _ rfl) _
        (doctorDone_ran_nvidia_smi env w hd)
    · intro e hd
      rw [key, hd]

/-- Witness of C17 as amended: `serve` without a model, and `run` with the install
mode "bogus" on a host where the doctor phase passes. -/
theorem invalid_flags_rejected_witness :
    commands.Serve envDown ctx0 {} world0 = (some "--model is required", world0) ∧
    commands.Run envDown ctx0 flagsBogus world0 =
      (.returned (some "invalid install mode: bogus"),
       (doctorDone envDown world0).2.emit (.phase .install)) :=
  ⟨(invalid_flags_rejected envDown ctx0 world0).1 {} rfl,
   (((invalid_flags_rejected envDown ctx0 world0).2.2.2.2.2 flagsBogus (by decide) (by decide)
      (by decide) (by decide) (by decide) (by decide)).1 (by decide)).1⟩

/-- Counterexample to C17: `hermes run --engine sglang --model demo --install bogus` is
rejected for its install mode only after the doctor phase has run three external
programs. -/
theorem Run_rejects_install_mode_after_doctor :
    (commands.Run envDown ctx0 flagsBogus world0).1 =
      .returned (some "invalid install mode: bogus") ∧
    (commands.Run envDown ctx0 flagsBogus world0).2.trace =
      [.phase .doctor,
       .exec "nvidia-smi" ["--query-gpu=name,memory.total,driver_version", "--format=csv,noheader"],
       .exec "uv" ["--version"],
       .exec "python3" ["--version"],
       .phase .install] := by
  refine ⟨by decide, by decide⟩

/-! ### run.go: the endpoint of the pipeline -/

theorem onHost_targets (base : String) (e : Event) (h : e.onHost = true) :
    e.targets base = true := by
  cases e <;> simp_all [Event.targets, Event.onHost]

theorem onDaemon_targets (base : String) (e : Event) (h : e.onDaemon = true) :
    e.targets base = true := by
  cases e <;> simp_all [Event.targets, Event.onDaemon]

theorem targets_endpoints (base : String) :
    ∀ ep ∈ commands.endpoints, Event.targets base (.http "GET" (base ++ ep)) = true := by
  intro ep hep
  simp only [commands.endpoints, List.mem_cons, List.mem_singleton, List.not_mem_nil,
    or_false] at hep
  rcases hep with rfl | rfl <;> simp [Event.targets]

theorem doctorDone_targets (env : Env) (f : commands.RunFlags) (w : World) :
    Appends (Event.targets (baseURL f)) w (doctorDone env w).2 :=
  (Appends.emit w (.phase .doctor) rfl).trans
    ((runDoctorPhase_appends env _).mono (onHost_targets _))

theorem installDone_targets (env : Env) (f : commands.RunFlags) (w : World) :
    Appends (Event.targets (baseURL f)) w (installDone env f w).2 :=
  ((doctorDone_targets env f w).trans (Appends.emit _ (.phase .install) rfl)).trans
    ((runInstallPhase_appends env _ _).mono (onHost_targets _))

theorem serveDone_targets (env : Env) (ctx : commands.AppContext) (f : commands.RunFlags)
    (w : World) : Appends (Event.targets (baseURL f)) w (serveDone env ctx f w).2 :=
  ((installDone_targets env f w).trans (Appends.emit _ (.phase .serve) rfl)).trans
    ((runServe_onDaemon env _ _ rfl).mono (onDaemon_targets _))

theorem readinessDone_targets (env : Env) (ctx : commands.AppContext) (f : commands.RunFlags)
    (w : World) : Appends (Event.targets (baseURL f)) w (readinessDone env ctx f w).2 :=
  ((serveDone_targets env ctx f w).trans (Appends.emit _ (.phase .readiness) rfl)).trans
    (waitForReadiness_appends env _ _ _ (targets_endpoints _) (fun _ => rfl))

theorem verifyDone_targets (env : Env) (ctx : commands.AppContext) (f : commands.RunFlags)
    (w : World) : Appends (Event.targets (baseURL f)) w (verifyDone env ctx f w).2 :=
  ((readinessDone_targets env ctx f w).trans (Appends.emit _ (.phase .verify) rfl)).trans
    (runVerify_appends env _ _ _ _ _ (by simp [Event.targets]) (by simp [Event.targets])
      (by simp [Event.targets]))

theorem report_targets (base : String) (w : World) :
    Appends (Event.targets base) w (w.emit (.report base)) :=
  Appends.emit _ _ (by simp [Event.targets])

/-- C11: on valid flags every HTTP request of `Run` goes to one of the three probe
paths under "http://127.0.0.1:" followed by the decimal port, and a success report
names exactly this string, whatever the bind host; when the doctor, install, serve
and readiness phases pass and the verification passes (or is skipped), `Run` ends
with the success report for this endpoint as its last event. -/
theorem Run_reports_local_endpoint (env : Env) (ctx : commands.AppContext)
    (f : commands.RunFlags) (w : World)
    (hmodel : f.model ≠ "") (heng : f.engineName = "sglang" ∨ f.engineName = "vllm") :
    Appends (Event.targets ("http://127.0.0.1:" ++ strconv.Itoa f.port)) w
      (commands.Run env ctx f w).2 ∧
    ((doctorDone env w).1 = none → (installDone env f w).1 = .ok none →
      (serveDone env ctx f w).1 = none → (readinessDone env ctx f w).1 = none →
      (f.noVerify = true ∨ (verifyDone env ctx f w).1.Status = "ok") →
      (commands.Run env ctx f w).1 = pipelineEnd f ∧
      (commands.Run env ctx f w).2.trace.getLast? =
        some (.report ("http://127.0.0.1:" ++ strconv.Itoa f.port))) := by
  have key := Run_eq env ctx f w hmodel heng
  constructor
  · show Appends (Event.targets (baseURL f)) w _
    rw [key]
    split
    · exact doctorDone_targets env f w
    · split
      · exact installDone_targets env f w
      · exact installDone_targets env f w
      · split
        · exact serveDone_targets env ctx f w
        · split
          · exact readinessDone_targets env ctx f w
          · split
            · exact (readinessDone_targets env ctx f w).trans (report_targets _ _)
            · split
              · exact verifyDone_targets env ctx f w
              · exact (verifyDone_targets env ctx f w).trans (report_targets _ _)
  · intro hd hi hs hr hv
    rw [key, hd, hi, hs, hr]
    cases hn : f.noVerify with
    | true => simp [World.emit, baseURL]
    | false =>
      rw [hn] at hv
      have hok : (verifyDone env ctx f w).1.Status = "ok" := by
        rcases hv with h | h
        · cases h
        · exact h
      simp [hok, World.emit, baseURL]

/-- Witness of C11, scenario A: engine "sglang", model "demo", default port; `/health`
answers 200 from the fourth poll cycle on, after three cycles that failed. The
pipeline sleeps three times, reports "http://127.0.0.1:30000" and then blocks, the
daemon flag being off. -/
theorem Run_reports_local_endpoint_witness :
    ((commands.Run (healthAfter 7) ctx0 flagsA world0).1 = .blocked ∧
      (commands.Run (healthAfter 7) ctx0 flagsA world0).2.trace.getLast? =
        some (.report "http://127.0.0.1:30000")) ∧
    sleepsOf (commands.Run (healthAfter 7) ctx0 flagsA world0).2.trace =
      [2000000000, 2000000000, 2000000000] :=
  ⟨(Run_reports_local_endpoint (healthAfter 7) ctx0 flagsA world0 (by decide) (by decide)).2
     (by decide) (by decide) (by decide) (by decide) (Or.inr (by decide)),
   by decide⟩

/-! ### run.go: one poll cycle -/

/-- C21: in a poll cycle that starts before the deadline `/v1/models` is requested
first; when it answers 200 the wait returns nil after this single request, without
requesting `/health` and without sleeping; otherwise `/health` is requested next, and
a 200 from it ends the wait after these two requests; only when both fail does the
loop sleep for the interval and go on to the next cycle. -/
theorem waitLoop_short_circuit (env : Env) (base : String) (deadline : Int) (fuel : Nat)
    (w : World) (hlt : w.now < deadline) :
    ((env.http w.requests "GET" (base ++ "/v1/models")).result.isOK = true →
      commands.waitLoop env base deadline (fuel + 1) w =
        some (none, (clientDo env "GET" (base ++ "/v1/models") w).2)) ∧
    ((env.http w.requests "GET" (base ++ "/v1/models")).result.isOK = false →
      (env.http (w.requests + 1) "GET" (base ++ "/health")).result.isOK = true →
      commands.waitLoop env base deadline (fuel + 1) w =
        some (none, (clientDo env "GET" (base ++ "/health")
          (clientDo env "GET" (base ++ "/v1/models") w).2).2)) ∧
    ((env.http w.requests "GET" (base ++ "/v1/models")).result.isOK = false →
      (env.http (w.requests + 1) "GET" (base ++ "/health")).result.isOK = false →
      commands.waitLoop env base deadline (fuel + 1) w =
        commands.waitLoop env base deadline fuel
          (commands.sleep commands.checkInterval
            (clientDo env "GET" (base ++ "/health")
              (clientDo env "GET" (base ++ "/v1/models") w).2).2)) ∧
    (clientDo env "GET" (base ++ "/v1/models") w).2.trace =
      w.trace ++ [.http "GET" (base ++ "/v1/models")] ∧
    (clientDo env "GET" (base ++ "/health")
      (clientDo env "GET" (base ++ "/v1/models") w).2).2.trace =
      w.trace ++ [.http "GET" (base ++ "/v1/models"), .http "GET" (base ++ "/health")] := by
  refine ⟨?_, ?_, ?_, rfl, ?_⟩
  · intro h1
    simp [commands.waitLoop, commands.probeEndpoints, commands.endpoints, clientDo, hlt, h1]
  · intro h1 h2
    simp [commands.waitLoop, commands.probeEndpoints, commands.endpoints, clientDo, hlt, h1, h2]
  · intro h1 h2
    simp [commands.waitLoop, commands.probeEndpoints, commands.endpoints, clientDo, hlt, h1, h2]
  · simp [clientDo]

/-- Witness of C21: `/v1/models` answers 200 in the first cycle; the whole wait is one
request. -/
theorem waitLoop_short_circuit_witness :
    commands.waitLoop envReady "http://127.0.0.1:30000" 4000000000 3 world0 =
      some (none, (clientDo envReady "GET" ("http://127.0.0.1:30000" ++ "/v1/models") world0).2) ∧
    (commands.waitForReadiness envReady "http://127.0.0.1:30000" (4 * Second) world0).2.trace =
      [.http "GET" "http://127.0.0.1:30000/v1/models"] :=
  ⟨(waitLoop_short_circuit envReady "http://127.0.0.1:30000" 4000000000 2 world0
      (by decide)).1 (by decide),
   by decide⟩

/-! ### serve.go: the result of the supervisor -/

/-- C22: a failure to start the command is returned at once, by `runDaemon` and by
`runForeground`; after a start that succeeded `runDaemon` returns nil right away,
whatever the child does later; `runForeground` returns nil when the signal comes
first, and when the child exits first it returns nil for a clean exit and an error
that wraps the exit error otherwise. Either function starts exactly one command. -/
theorem supervisor_result (env : Env) (cmd : Cmd) (logFile : Option String)
    (cfg : config.ServeConfig) (w : World) :
    (∀ err, env.start cmd.Path cmd.Args = some err →
      (commands.runDaemon env cmd logFile cfg w).1 = some ("failed to start daemon: " ++ err) ∧
      (commands.runForeground env cmd logFile cfg w).1 =
        some ("failed to start server: " ++ err) ∧
      (commands.runForeground env cmd logFile cfg w).2.trace.getLast? ≠ some .reaped) ∧
    (env.start cmd.Path cmd.Args = none →
      (commands.runDaemon env cmd logFile cfg w).1 = none) ∧
    (∃ c, (commands.runDaemon env cmd logFile cfg w).2 = w.emit (.start c)) ∧
    (env.start cmd.Path cmd.Args = none → env.signalFirst = true →
      (commands.runForeground env cmd logFile cfg w).1 = none) ∧
    (env.start cmd.Path cmd.Args = none → env.signalFirst = false → env.wait = none →
      (commands.runForeground env cmd logFile cfg w).1 = none) ∧
    (∀ err, env.start cmd.Path cmd.Args = none → env.signalFirst = false →
      env.wait = some err →
      (commands.runForeground env cmd logFile cfg w).1 =
        some ("server exited with error: " ++ err)) ∧
    (startedOf (commands.runDaemon env cmd logFile cfg w).2.trace).length =
      (startedOf w.trace).length + 1 ∧
    (startedOf (commands.runForeground env cmd logFile cfg w).2.trace).length =
      (startedOf w.trace).length + 1 := by
  refine ⟨?_, ?_, ?_, ?_, ?_, ?_, ?_, ?_⟩
  · intro err h
    refine ⟨?_, ?_, ?_⟩
    · cases logFile <;> simp [commands.runDaemon, h]
    · cases logFile <;> simp [commands.runForeground, h]
    · cases logFile <;>
        simp [commands.runForeground, h, World.emit, List.getLast?_append]
  · intro h
    cases logFile <;> simp [commands.runDaemon, h]
  · cases logFile <;> cases h : env.start cmd.Path cmd.Args <;>
      simp only [commands.runDaemon, h] <;> exact ⟨_, rfl⟩
  · intro h1 h2
    cases logFile <;> simp [commands.runForeground, h1, h2]
  · intro h1 h2 h3
    cases logFile <;> simp [commands.runForeground, h1, h2, h3]
  · intro err h1 h2 h3
    cases logFile <;> simp [commands.runForeground, h1, h2, h3]
  · cases logFile <;> cases h : env.start cmd.Path cmd.Args <;>
      simp [commands.runDaemon, h, World.emit, startedOf_append, startedOf]
  · cases logFile <;> cases h : env.start cmd.Path cmd.Args <;> cases h2 : env.signalFirst <;>
      cases h3 : env.wait <;>
      simp [commands.runForeground, h, h2, h3, World.emit, startedOf_append, startedOf]

/-- Witness of C22: a command that cannot be started, and a child that exits with a
failure before any signal. -/
theorem supervisor_result_witness :
    ((commands.runDaemon envNoStart (exec.CommandContext "uv" ["run"]) none cfgExtra world0).1 =
        some ("failed to start daemon: " ++ "exec: \"uv\": executable file not found in $PATH") ∧
      (commands.runForeground envNoStart (exec.CommandContext "uv" ["run"]) none cfgExtra
        world0).1 =
        some ("failed to start server: " ++ "exec: \"uv\": executable file not found in $PATH") ∧
      (commands.runForeground envNoStart (exec.CommandContext "uv" ["run"]) none cfgExtra
        world0).2.trace.getLast? ≠ some .reaped) ∧
    (commands.runForeground envChildFails (exec.CommandContext "uv" ["run"]) none cfgExtra
      world0).1 = some ("server exited with error: " ++ "exit status 1") :=
  ⟨(supervisor_result envNoStart (exec.CommandContext "uv" ["run"]) none cfgExtra world0).1
     _ rfl,
   (supervisor_result envChildFails (exec.CommandContext "uv" ["run"]) none cfgExtra
     world0).2.2.2.2.2.1 _ rfl rfl rfl⟩

/-! ### run.go: the doctor phase -/

/-- C26: `runDoctorPhase` returns an error (always "critical doctor checks failed")
exactly when the status of the nvidia-smi check is not ok; its result does not depend
on the uv and python checks; the three checks are run one after the other, whatever
their results. -/
theorem runDoctorPhase_fails_iff (env : Env) (w : World) :
    ((commands.runDoctorPhase env w).1 ≠ none ↔
      (commands.checkNvidiaSMI env true w).1.Status ≠ commands.StatusOK) ∧
    (commands.runDoctorPhase env w).1 =
      (if (commands.checkNvidiaSMI env true w).1.Status = commands.StatusOK then none
       else some "critical doctor checks failed") ∧
    (commands.runDoctorPhase env w).2 =
      (commands.checkPython env true
        (commands.checkUV env true (commands.checkNvidiaSMI env true w).2).2).2 := by
  rw [runDoctorPhase_eq]
  refine ⟨?_, rfl, rfl⟩
  by_cases h : (commands.checkNvidiaSMI env true w).1.Status = commands.StatusOK <;> simp [h]

/-! ### main.go: the global flags -/

theorem logFileTwice_tail (a : String) (rest : List String)
    (h : logFileTwice (a :: rest) = false) : logFileTwice rest = false := by
  cases rest with
  | nil => rfl
  | cons b rest =>
    simp only [logFileTwice, Bool.or_eq_false_iff] at h
    exact h.2

theorem keptByParse_cons (a : String) (rest : List String) (ha : a ≠ "--log-file") :
    keptByParse (a :: rest) =
      if a = "--debug" ∨ a = "--no-color" ∨ a = "--force-color" then keptByParse rest
      else a :: keptByParse rest := by
  cases rest <;> simp [keptByParse, ha]

theorem parseLoop_cons (a : String) (rest : List String) (flags : app.GlobalFlags)
    (ha : a ≠ "--log-file") (h1 : a ≠ "--debug") (h2 : a ≠ "--no-color")
    (h3 : a ≠ "--force-color") :
    main.parseLoop (a :: rest) flags = main.parseLoop rest flags := by
  cases rest <;> simp [main.parseLoop, ha, h1, h2, h3]

/-- The arguments that `parseGlobalFlags` passes over leave the flags as they are. -/
theorem parseLoop_keptByParse (n : Nat) :
    ∀ (args : List String) (flags : app.GlobalFlags), args.length ≤ n →
      main.parseLoop (keptByParse args) flags = flags := by
  induction n with
  | zero =>
    intro args flags hn
    have h0 : args = [] := List.length_eq_zero.mp (Nat.le_zero.mp hn)
    subst h0
    rfl
  | succ n ih =>
    intro args flags hn
    cases args with
    | nil => rfl
    | cons a rest =>
      have hrest : rest.length ≤ n := by simpa using hn
      by_cases ha : a = "--log-file"
      · subst ha
        cases rest with
        | nil => rfl
        | cons b rest =>
          have hrest2 : rest.length ≤ n := by
            simp only [List.length_cons] at hrest
            omega
          rw [keptByParse]
          simpa using ih rest flags hrest2
      · rw [keptByParse_cons a rest ha]
        by_cases hg : a = "--debug" ∨ a = "--no-color" ∨ a = "--force-color"
        · simpa [hg] using ih rest flags hrest
        · have hg2 := hg
          simp only [not_or] at hg2
          rw [if_neg hg, parseLoop_cons a _ flags ha hg2.1 hg2.2.1 hg2.2.2]
          exact ih rest flags hrest

/-- Where no `--log-file` is the value of another, the loop of `filterGlobalFlags` keeps
exactly the arguments that the loop of `parseGlobalFlags` passes over. -/
theorem filterLoop_eq_keptByParse (n : Nat) :
    ∀ (args : List String) (prev : Option String), args.length ≤ n →
      logFileTwice args = false → prev ≠ some "--log-file" →
      main.filterLoop prev false args = keptByParse args := by
  induction n with
  | zero =>
    intro args prev hn _ _
    have h0 : args = [] := List.length_eq_zero.mp (Nat.le_zero.mp hn)
    subst h0
    rfl
  | succ n ih =>
    intro args prev hn h2 hp
    cases args with
    | nil => rfl
    | cons a rest =>
      have hrest : rest.length ≤ n := by simpa using hn
      have h2r := logFileTwice_tail a rest h2
      by_cases ha : a = "--log-file"
      · subst ha
        cases rest with
        | nil => simp [main.filterLoop, keptByParse]
        | cons b rest =>
          have hb : b ≠ "--log-file" := by
            intro hb
            subst hb
            simp [logFileTwice] at h2
          have hrest2 : rest.length ≤ n := by
            simp only [List.length_cons] at hrest
            omega
          have h2rr := logFileTwice_tail _ rest h2r
          have := ih rest (some b) hrest2 h2rr (by simpa using hb)
          simp [main.filterLoop, keptByParse, this]
      · have hpa : (some a : Option String) ≠ some "--log-file" := by simpa using ha
        have := ih rest (some a) hrest h2r hpa
        by_cases hg : a = "--debug" ∨ a = "--no-color" ∨ a = "--force-color"
        · simp [main.filterLoop, keptByParse_cons a rest ha, ha, hg, this]
        · simp [main.filterLoop, keptByParse_cons a rest ha, ha, hg, hp, this]

/-- Where no `--log-file` is the value of another, `filterGlobalFlags` returns exactly
the arguments that `parseGlobalFlags` passes over. -/
theorem filterGlobalFlags_eq_keptByParse (args : List String)
    (h : logFileTwice args = false) : main.filterGlobalFlags args = keptByParse args :=
  filterLoop_eq_keptByParse args.length args none (Nat.le_refl _) h (by simp)

/-- C23: on the arguments `--log-file --log-file x` after the command, `parseGlobalFlags`
takes the second `--log-file` as the value of the first and passes over `x`, while
`filterGlobalFlags` drops `x` as well: the command receives no argument. -/
theorem filterGlobalFlags_drops_unconsumed :
    main.parseGlobalFlags ["hermes", "run", "--log-file", "--log-file", "x"] =
      { LogFile := "--log-file" } ∧
    main.parseGlobalFlags ["hermes", "run", "--log-file", "--log-file", "--debug"] =
      { LogFile := "--log-file", Debug := true } ∧
    keptByParse ["--log-file", "--log-file", "x"] = ["x"] ∧
    main.filterGlobalFlags ["--log-file", "--log-file", "x"] = [] ∧
    main.filterGlobalFlags ["--log-file", "--log-file", "x"] ≠
      keptByParse ["--log-file", "--log-file", "x"] := by
  refine ⟨by decide, by decide, by decide, by decide, by decide⟩

/-! ### install.go: the state pointer -/

/-- C24: when the state file exists and cannot be read, `loadState` returns the nil
pointer with the error; `Install` drops the error, hands the nil pointer to `ensureUV`,
and with `uv` on the PATH the write of `UVInstalled` through it panics; the same
happens in the install phase of `Run`. -/
theorem Install_nil_state_panics :
    commands.loadState envUnreadable =
      (none, some "open /root/.cache/hermes/state.json: permission denied") ∧
    commands.ensureUV envUnreadable (commands.loadState envUnreadable).1 world0 =
      (.panic commands.nilDereference, world0) ∧
    commands.Install envUnreadable {} world0 = (.panic commands.nilDereference, world0) ∧
    (commands.Run envUnreadable ctx0 flagsA world0).1 = .panicked commands.nilDereference := by
  refine ⟨by decide, by decide, by decide, by decide⟩

/-! ### doctor.go: the report -/

theorem checkNvidiaSMI_status (env : Env) (j : Bool) (w : World) :
    (commands.checkNvidiaSMI env j w).1.Status = commands.StatusOK ∨
    (commands.checkNvidiaSMI env j w).1.Status = commands.StatusFail := by
  unfold commands.checkNvidiaSMI
  simp only [execx.Run]
  split_ifs <;> simp

theorem checkCUDA_status (env : Env) (j : Bool) (w : World) :
    (commands.checkCUDA env j w).1.Status = commands.StatusOK ∨
    (commands.checkCUDA env j w).1.Status = commands.StatusWarning := by
  unfold commands.checkCUDA
  simp only [execx.Run]
  split_ifs <;> simp

theorem checkGPUs_status (env : Env) (j : Bool) (w : World) :
    (commands.checkGPUs env j w).1.Status = commands.StatusOK ∨
    (commands.checkGPUs env j w).1.Status = commands.StatusFail ∨
    (commands.checkGPUs env j w).1.Status = commands.StatusSkipped := by
  unfold commands.checkGPUs
  simp only [execx.Run]
  split_ifs <;> simp

theorem checkUV_status (env : Env) (j : Bool) (w : World) :
    (commands.checkUV env j w).1.Status = commands.StatusOK ∨
    (commands.checkUV env j w).1.Status = commands.StatusWarning := by
  unfold commands.checkUV
  simp only [execx.Run]
  split_ifs <;> simp

theorem checkPython_status (env : Env) (j : Bool) (w : World) :
    (commands.checkPython env j w).1.Status = commands.StatusOK ∨
    (commands.checkPython env j w).1.Status = commands.StatusWarning := by
  unfold commands.checkPython
  simp only [execx.Run]
  split <;> simp

/-- The loop of `Doctor` over the checks computes three "some check has this status"
flags. -/
theorem doctorFold_eq (checks : List commands.CheckResult) :
    ∀ acc : Bool × Bool × Bool,
      List.foldl (fun (acc : Bool × Bool × Bool) (c : commands.CheckResult) =>
        if c.Status = commands.StatusOK then (true, acc.2.1, acc.2.2)
        else if c.Status = commands.StatusWarning then (acc.1, true, acc.2.2)
        else if c.Status = commands.StatusFail then (acc.1, acc.2.1, true)
        else acc) acc checks =
      (acc.1 || checks.any (fun c => c.Status == commands.StatusOK),
       acc.2.1 || checks.any (fun c => c.Status == commands.StatusWarning),
       acc.2.2 || checks.any (fun c => c.Status == commands.StatusFail)) := by
  induction checks with
  | nil => intro acc; simp
  | cons c cs ih =>
    intro acc
    rw [List.foldl_cons, ih]
    by_cases h1 : c.Status = commands.StatusOK
    · simp [h1, commands.StatusOK, commands.StatusWarning, commands.StatusFail]
    · by_cases h2 : c.Status = commands.StatusWarning
      · simp [h2, commands.StatusOK, commands.StatusWarning, commands.StatusFail]
      · by_cases h3 : c.Status = commands.StatusFail
        · simp [h3, commands.StatusOK, commands.StatusWarning, commands.StatusFail]
        · simp [h1, h2, h3, beq_eq_false_iff_ne.mpr h1, beq_eq_false_iff_ne.mpr h2,
            beq_eq_false_iff_ne.mpr h3]

/-- The report of `Doctor` and the way it ends, from the three flags. -/
theorem Doctor_eq (env : Env) (f : commands.DoctorFlags) (w : World) :
    (commands.Doctor env f w).1.1 =
      (if (doctorChecks env f.jsonOutput w).any (fun c => c.Status == commands.StatusFail) then
        { Checks := doctorChecks env f.jsonOutput w, Summary := "Some checks failed",
          ExitCode := 3 }
       else if (doctorChecks env f.jsonOutput w).any
          (fun c => c.Status == commands.StatusWarning) then
        if f.strict then
          { Checks := doctorChecks env f.jsonOutput w,
            Summary := "Some checks have warnings (strict mode)", ExitCode := 2 }
        else
          { Checks := doctorChecks env f.jsonOutput w,
            Summary := "All required checks passed (with warnings)", ExitCode := 0 }
       else if (doctorChecks env f.jsonOutput w).any
          (fun c => c.Status == commands.StatusOK) then
        { Checks := doctorChecks env f.jsonOutput w, Summary := "All checks passed",
          ExitCode := 0 }
       else
        { Checks := doctorChecks env f.jsonOutput w, Summary := "No checks ran",
          ExitCode := 3 }) ∧
    (commands.Doctor env f w).1.2 =
      (if f.jsonOutput then .returned env.encode
       else .exited (commands.Doctor env f w).1.1.ExitCode) := by
  simp only [commands.Doctor, doctorChecks, doctorFold_eq, Bool.false_or, List.nil_append,
    List.singleton_append, List.cons_append]
  constructor <;> split <;> rfl

/-- The nvidia-smi check is ok or fail, so some check of the report is ok or fail. -/
theorem doctorChecks_ok_or_fail (env : Env) (j : Bool) (w : World) :
    (doctorChecks env j w).any (fun c => c.Status == commands.StatusOK) = true ∨
    (doctorChecks env j w).any (fun c => c.Status == commands.StatusFail) = true := by
  rcases checkNvidiaSMI_status env j w with h | h
  · left; simp [doctorChecks, h]
  · right; simp [doctorChecks, h]

/-- C25: the exit code of the doctor report is 3 when some check failed, otherwise 2
when some check has a warning and `--strict` is set, otherwise 0; it is one of 0, 2
and 3, and the summary is never "No checks ran": the nvidia-smi check always yields ok
or fail, and the cuda check always yields ok or warning. Without `--json` the process
exits with this code. -/
theorem Doctor_exit_code (env : Env) (f : commands.DoctorFlags) (w : World) :
    (commands.Doctor env f w).1.1.Checks = doctorChecks env f.jsonOutput w ∧
    (commands.Doctor env f w).1.1.ExitCode =
      doctorExitCode (commands.Doctor env f w).1.1.Checks f.strict ∧
    ((commands.Doctor env f w).1.1.ExitCode = 0 ∨ (commands.Doctor env f w).1.1.ExitCode = 2 ∨
      (commands.Doctor env f w).1.1.ExitCode = 3) ∧
    (commands.Doctor env f w).1.1.Summary ≠ "No checks ran" ∧
    (∀ j w1, (commands.checkNvidiaSMI env j w1).1.Status = commands.StatusOK ∨
      (commands.checkNvidiaSMI env j w1).1.Status = commands.StatusFail) ∧
    (∀ j w1, (commands.checkCUDA env j w1).1.Status = commands.StatusOK ∨
      (commands.checkCUDA env j w1).1.Status = commands.StatusWarning) ∧
    (commands.Doctor env f w).1.2 =
      (if f.jsonOutput then .returned env.encode
       else .exited (commands.Doctor env f w).1.1.ExitCode) := by
  obtain ⟨hr, ht⟩ := Doctor_eq env f w
  have hcf := doctorChecks_ok_or_fail env f.jsonOutput w
  have hChecks : (commands.Doctor env f w).1.1.Checks = doctorChecks env f.jsonOutput w := by
    rw [hr]
    split_ifs <;> rfl
  have hCode : (commands.Doctor env f w).1.1.ExitCode =
      doctorExitCode (doctorChecks env f.jsonOutput w) f.strict := by
    rw [hr]
    unfold doctorExitCode
    clear hr ht hChecks
    generalize f.strict = S
    generalize (doctorChecks env f.jsonOutput w).any
      (fun c => c.Status == commands.StatusFail) = A at hcf ⊢
    generalize (doctorChecks env f.jsonOutput w).any
      (fun c => c.Status == commands.StatusWarning) = B at hcf ⊢
    generalize (doctorChecks env f.jsonOutput w).any
      (fun c => c.Status == commands.StatusOK) = C at hcf ⊢
    cases A <;> cases B <;> cases C <;> cases S <;> simp_all
  have hSummary : (commands.Doctor env f w).1.1.Summary ≠ "No checks ran" := by
    rw [hr]
    clear hr ht hChecks hCode
    generalize f.strict = S
    generalize (doctorChecks env f.jsonOutput w).any
      (fun c => c.Status == commands.StatusFail) = A at hcf ⊢
    generalize (doctorChecks env f.jsonOutput w).any
      (fun c => c.Status == commands.StatusWarning) = B at hcf ⊢
    generalize (doctorChecks env f.jsonOutput w).any
      (fun c => c.Status == commands.StatusOK) = C at hcf ⊢
    cases A <;> cases B <;> cases C <;> cases S <;> simp_all
  refine ⟨hChecks, ?_, ?_, hSummary, fun j w1 => checkNvidiaSMI_status env j w1,
    fun j w1 => checkCUDA_status env j w1, ht⟩
  · rw [hChecks]; exact hCode
  · rw [hCode]
    unfold doctorExitCode
    split_ifs <;> simp

end Hermes
